import Mathlib

/-!
Shallow embedding of the resource ACL subsystem of `brood`
(`brood/resources/actions.py`, with the data model of
`brood/resources/data.py` and `brood/resources/models.py`).

Modelling conventions:
* UUIDs are modelled as `Nat`.
* Python `set`s whose only observable use is membership / subset testing are
  modelled as `List`s compared by membership.
* SQL tables are lists of row structures; SQL `JOIN` is a `bind` over
  filtered partner rows; SQL `=`/`IN` comparisons against `NULL` are false,
  which the `Option` matches below reproduce.
* SQLAlchemy exceptions are modelled by an error type returned in `Except`.
* `uuid4` primary-key generation is modelled by a `nextId` counter in the
  database state: each inserted row takes the next counter value.
-/

namespace Brood

/-- `data.ResourcePermissions`: the permission vocabulary used for required
scopes, including the synthetic extended value `any`. -/
inductive ResourcePermissions where
  | admin
  | create
  | read
  | update
  | delete
  | any
deriving DecidableEq, Repr

/-- `.value` of the Python enum member. -/
def ResourcePermissions.value : ResourcePermissions → String
  | .admin => "admin"
  | .create => "create"
  | .read => "read"
  | .update => "update"
  | .delete => "delete"
  | .any => "any"

/-- Iteration order of `data.ResourcePermissions` (Python `Enum` iterates in
declaration order), as used by the `for permission in data.ResourcePermissions`
loop of `create_resource`. -/
def ResourcePermissions.all : List ResourcePermissions :=
  [.admin, .create, .read, .update, .delete, .any]

/-- `models.ResourcePermissionsEnum`: the stored permission vocabulary,
without the synthetic `any`.  Used by request bodies
(`data.ResourcePermissionsRequest.permissions`). -/
inductive ResourcePermissionsEnum where
  | admin
  | create
  | read
  | update
  | delete
deriving DecidableEq, Repr

/-- `.value` of the Python enum member. -/
def ResourcePermissionsEnum.value : ResourcePermissionsEnum → String
  | .admin => "admin"
  | .create => "create"
  | .read => "read"
  | .update => "update"
  | .delete => "delete"

/-- `data.HolderType`. -/
inductive HolderType where
  | user
  | group
deriving DecidableEq, Repr

/-- The exceptions of `brood/resources/exceptions.py` that the modelled
actions raise (with their message strings). -/
inductive Err where
  | resourceNotFound (msg : String)
  | permissionsNotFound (msg : String)
  | holderPermissionsNotFound (msg : String)
deriving DecidableEq, Repr

/-- A JSON scalar value, enough to model the opaque `resource_data` values. -/
inductive JsonValue where
  | nat (n : Nat)
  | str (s : String)
  | boolean (b : Bool)
  | null
deriving DecidableEq, Repr

/-- PostgreSQL `->>`/`.astext` of a JSON value: text form, or SQL `NULL` for a
JSON `null` (comparisons against `NULL` are false). -/
def JsonValue.astext : JsonValue → Option String
  | .nat n => some (toString n)
  | .str s => some s
  | .boolean b => some (cond b "true" "false")
  | .null => none

/-- A row of the `resources` table (`models.Resource`).  `resource_data` is a
JSON object: an association list with unique keys, insertion-ordered like a
Python dict. -/
structure ResourceRow where
  id : Nat
  application_id : Nat
  resource_data : List (String × JsonValue)
deriving DecidableEq, Repr

/-- A row of the `resource_permissions` table (`models.ResourcePermission`,
the per-resource permission catalog joined by `actions.py`). -/
structure ResourcePermissionRow where
  id : Nat
  resource_id : Nat
  permission : String
deriving DecidableEq, Repr

/-- A row of the `resource_holder_permissions` table
(`models.ResourceHolderPermission` as used by `actions.py`): exactly one of
`user_id` / `group_id` is meant to be set, and `permission_id` references a
`resource_permissions` row. -/
structure ResourceHolderPermissionRow where
  id : Nat
  user_id : Option Nat
  group_id : Option Nat
  resource_id : Nat
  permission_id : Nat
deriving DecidableEq, Repr

/-- The part of `models.Application` consumed here (`id`, `group_id`). -/
structure ApplicationRow where
  id : Nat
  group_id : Nat
deriving DecidableEq, Repr

/-- The database state visible to the resource actions. -/
structure DB where
  resources : List ResourceRow
  resource_permissions : List ResourcePermissionRow
  holder_permissions : List ResourceHolderPermissionRow
  applications : List ApplicationRow
  nextId : Nat
deriving DecidableEq, Repr

/-- The acl dictionary built by `acl_auth`: permission names per holder type. -/
structure Acl where
  user : List String
  group : List String
deriving DecidableEq, Repr

/-- The `or_(user_id == ..., group_id.in_(...))` holder filter.  SQL equality
and `IN` against a `NULL` column are false. -/
def holderMatches (user_id : Nat) (user_group_id_list : List Nat)
    (hp : ResourceHolderPermissionRow) : Bool :=
  hp.user_id == some user_id ||
    (match hp.group_id with
     | some g => user_group_id_list.contains g
     | none => false)

/-- The rows fetched by `acl_auth`: `(user_id, group_id, permission)` tuples of
the holder-permission rows on `resource_id` whose holder is the user or one of
the groups, joined with `resource_permissions` on
`ResourcePermission.id == ResourceHolderPermission.permission_id`. -/
def acl_auth_rows (db : DB) (user_id : Nat) (user_group_id_list : List Nat)
    (resource_id : Nat) : List (Option Nat × Option Nat × String) :=
  (db.holder_permissions.filter
      (fun hp => hp.resource_id == resource_id &&
        holderMatches user_id user_group_id_list hp)).flatMap
    (fun hp =>
      (db.resource_permissions.filter (fun rp => rp.id == hp.permission_id)).map
        (fun rp => (hp.user_id, hp.group_id, rp.permission)))

/-- `actions.acl_auth`: raises `PermissionsNotFound` when the fetched result
set is empty, otherwise builds the acl dict, appending each row's permission
to the user side if its `user_id` is set and to the group side if its
`group_id` is set. -/
def acl_auth (db : DB) (user_id : Nat) (user_group_id_list : List Nat)
    (resource_id : Nat) : Except Err Acl :=
  let permissions := acl_auth_rows db user_id user_group_id_list resource_id
  if permissions.isEmpty then
    Except.error (Err.permissionsNotFound "No permissions for requested information")
  else
    Except.ok
      { user := (permissions.filter (fun p => p.1.isSome)).map (fun p => p.2.2)
        group := (permissions.filter (fun p => p.2.1.isSome)).map (fun p => p.2.2) }

/-- `actions.acl_check`: collects the permission names of the chosen side(s)
of the acl (the union of both sides when `check_type` is `None`) and raises
`PermissionsNotFound` unless the values of `required_scopes` are a subset.
The synthetic `any` member receives no special treatment: its value string
participates in the subset test like any other. -/
def acl_check (acl : Acl) (required_scopes : List ResourcePermissions)
    (check_type : Option HolderType) : Except Err Unit :=
  let permissions : List String :=
    match check_type with
    | none => acl.user ++ acl.group
    | some HolderType.user => acl.user
    | some HolderType.group => acl.group
  if (required_scopes.map ResourcePermissions.value).all
      (fun v => permissions.contains v) then
    Except.ok ()
  else
    Except.error (Err.permissionsNotFound "No permissions for requested information")

/-- The authorization sequence used by every gated handler
(`api.ensure_resource_permission`): `acl_auth` followed by `acl_check` with
the default (union) scope. -/
def authorize (db : DB) (user_id : Nat) (user_group_id_list : List Nat)
    (resource_id : Nat) (required_scopes : List ResourcePermissions) :
    Except Err Unit :=
  (acl_auth db user_id user_group_id_list resource_id).bind
    (fun acl => acl_check acl required_scopes none)

/-- One elementary session operation performed by `create_resource`:
`db_session.add(...)` of one row, or `db_session.commit()`. -/
inductive SessionOp where
  | insertResource (r : ResourceRow)
  | insertResourcePermission (rp : ResourcePermissionRow)
  | insertHolderPermission (hp : ResourceHolderPermissionRow)
  | commit
deriving DecidableEq, Repr

/-- A session in flight: the durably committed database and the pending
database including uncommitted inserts. -/
structure SessionState where
  committed : DB
  pending : DB
deriving DecidableEq, Repr

/-- Apply one session operation: inserts extend the pending state only,
`commit` makes the pending state durable. -/
def applyOp (s : SessionState) : SessionOp → SessionState
  | .insertResource r =>
    { s with pending :=
        { s.pending with resources := s.pending.resources ++ [r]
                         nextId := s.pending.nextId + 1 } }
  | .insertResourcePermission rp =>
    { s with pending :=
        { s.pending with resource_permissions := s.pending.resource_permissions ++ [rp]
                         nextId := s.pending.nextId + 1 } }
  | .insertHolderPermission hp =>
    { s with pending :=
        { s.pending with holder_permissions := s.pending.holder_permissions ++ [hp]
                         nextId := s.pending.nextId + 1 } }
  | .commit => { committed := s.pending, pending := s.pending }

/-- Run a list of session operations. -/
def runOps (s : SessionState) (ops : List SessionOp) : SessionState :=
  ops.foldl applyOp s

/-- The committed database after the first `n` operations of `ops` have run
(the durable state observed if execution stops — e.g. fails — right after
step `n`). -/
def committedAfter (db : DB) (ops : List SessionOp) (n : Nat) : DB :=
  (runOps ⟨db, db⟩ (ops.take n)).committed

/-- The session-operation trace of `actions.create_resource`: insert the
`Resource` row and commit; then, for each member of
`data.ResourcePermissions` in declaration order, insert the per-resource
`ResourcePermission` row and commit, then insert the creating user's grant
and the owning application's group grant and commit.  `None` when the
application lookup (which the code performs between the first commit and the
loop, and which no operation of the trace alters) finds no row. -/
def create_resource_ops (db : DB) (user_id application_id : Nat)
    (resource_data : List (String × JsonValue)) : Option (List SessionOp) :=
  (db.applications.find? (fun a => a.id == application_id)).map
    (fun application =>
      let rid := db.nextId
      [SessionOp.insertResource ⟨rid, application_id, resource_data⟩,
       SessionOp.commit] ++
        (ResourcePermissions.all.enum.flatMap (fun ip =>
          let rpId := db.nextId + 1 + 3 * ip.1
          [SessionOp.insertResourcePermission ⟨rpId, rid, ip.2.value⟩,
           SessionOp.commit,
           SessionOp.insertHolderPermission ⟨rpId + 1, some user_id, none, rid, rpId⟩,
           SessionOp.insertHolderPermission
             ⟨rpId + 2, none, some application.group_id, rid, rpId⟩,
           SessionOp.commit])))

/-- `actions.create_resource`: the committed database after the full trace
ran (`None` when the application lookup fails, where the Python code would
fault dereferencing `application.group_id`). -/
def create_resource (db : DB) (user_id application_id : Nat)
    (resource_data : List (String × JsonValue)) : Option DB :=
  (create_resource_ops db user_id application_id resource_data).map
    (fun ops => (runOps ⟨db, db⟩ ops).committed)

/-- Keep the first row bearing each key, dropping later rows whose key was
already seen: the uniquifying that the legacy SQLAlchemy `Query` applies to
results consisting of full ORM entities (deduplication by primary key,
preserving first occurrence, cf. the SQLAlchemy FAQ on `Query.count`
mismatches).  `seen` is the set of keys already emitted. -/
def uniqueBy {α : Type} (key : α → Nat) (seen : List Nat) : List α → List α
  | [] => []
  | r :: rest =>
    if seen.contains (key r) then uniqueBy key seen rest
    else r :: uniqueBy key (key r :: seen) rest

/-- Python dict lookup on an association-list JSON object. -/
def dictGet (d : List (String × JsonValue)) (k : String) : Option JsonValue :=
  (d.find? (fun p => p.1 == k)).map (fun p => p.2)

/-- `actions.get_list_of_resources`: join `resources` with
`resource_holder_permissions` (one joined row per matching grant row),
filter by holder, optional application and exact-match `resource_data`
params, then return the entity list, which the legacy `Query` deduplicates
by primary key. -/
def get_list_of_resources (db : DB) (user_id : Nat) (user_groups_ids : List Nat)
    (params : List (String × String)) (application_id : Option Nat) :
    List ResourceRow :=
  let joined := db.resources.flatMap (fun r =>
    (db.holder_permissions.filter (fun hp => hp.resource_id == r.id &&
        holderMatches user_id user_groups_ids hp)).map (fun _ => r))
  let byApp :=
    match application_id with
    | some aid => joined.filter (fun r => r.application_id == aid)
    | none => joined
  let byParams := params.foldl
    (fun acc kv =>
      acc.filter (fun r => (dictGet r.resource_data kv.1).bind JsonValue.astext
        == some kv.2))
    byApp
  uniqueBy ResourceRow.id [] byParams

/-- `data.ResourceDataUpdateRequest`. -/
structure ResourceDataUpdateRequest where
  update : List (String × JsonValue)
  drop_keys : List String
deriving DecidableEq, Repr

/-- Python dict assignment `d[k] = v`: overwrite in place when the key
exists (keeping its position), else append. -/
def dictSet (d : List (String × JsonValue)) (k : String) (v : JsonValue) :
    List (String × JsonValue) :=
  if d.any (fun p => p.1 == k) then
    d.map (fun p => if p.1 == k then (k, v) else p)
  else d ++ [(k, v)]

/-- Python `del d[k]` wrapped in `try ... except: pass`: remove the key when
present, silently do nothing otherwise. -/
def dictDrop (d : List (String × JsonValue)) (k : String) :
    List (String × JsonValue) :=
  d.filter (fun p => !(p.1 == k))

/-- `actions.update_resource_data`: find the resource (ids are unique, so
`one_or_none` is a lookup), raise `ResourceNotFound` when absent; otherwise
fold the `update` items into the data (shallow merge), then drop each
`drop_keys` key, and store the result.  Returns the updated database and
row. -/
def update_resource_data (db : DB) (resource_id : Nat)
    (update_data : ResourceDataUpdateRequest) : Except Err (DB × ResourceRow) :=
  match db.resources.find? (fun r => r.id == resource_id) with
  | none => Except.error (Err.resourceNotFound "Not found requested resource")
  | some resource =>
    let merged := update_data.update.foldl
      (fun acc kv => dictSet acc kv.1 kv.2) resource.resource_data
    let dropped := update_data.drop_keys.foldl (fun acc k => dictDrop acc k) merged
    let newRow := { resource with resource_data := dropped }
    Except.ok
      ({ db with resources :=
          db.resources.map (fun r => if r.id == resource_id then newRow else r) },
        newRow)

/-- `data.ResourcePermissionsRequest`: the holder and the requested
permissions (drawn from the stored vocabulary, without `any`). -/
structure ResourcePermissionsRequest where
  holder_id : Nat
  holder_type : HolderType
  permissions : List ResourcePermissionsEnum
deriving DecidableEq, Repr

/-- The holder filter both grant-mutation actions build from the request:
equality on `user_id` for a user holder, on `group_id` for a group holder
(SQL equality against `NULL` is false). -/
def requestHolderFilter (req : ResourcePermissionsRequest)
    (hp : ResourceHolderPermissionRow) : Bool :=
  match req.holder_type with
  | .user => hp.user_id == some req.holder_id
  | .group => hp.group_id == some req.holder_id

/-- The permission ids already granted to the requested holder on the
resource (the `holder_permissions_query` subquery of
`actions.add_holder_permissions`). -/
def addHolderPermissionIds (db : DB) (resource_id : Nat)
    (req : ResourcePermissionsRequest) : List Nat :=
  (db.holder_permissions.filter (fun hp => hp.resource_id == resource_id &&
      requestHolderFilter req hp)).map (fun hp => hp.permission_id)

/-- The join of `resource_permissions` with `resource_holder_permissions`
(any holder) on the resource: one occurrence of a catalog row per grant row
referencing it. -/
def addJoined (db : DB) (resource_id : Nat) : List ResourcePermissionRow :=
  db.resource_permissions.flatMap (fun rp =>
    (db.holder_permissions.filter (fun hp => hp.permission_id == rp.id &&
        hp.resource_id == resource_id)).map (fun _ => rp))

/-- The joined catalog rows whose permission value was requested and whose
id the holder does not already hold. -/
def addCandidates (db : DB) (resource_id : Nat)
    (req : ResourcePermissionsRequest) : List ResourcePermissionRow :=
  (addJoined db resource_id).filter (fun rp =>
    (req.permissions.map ResourcePermissionsEnum.value).contains rp.permission &&
      !((addHolderPermissionIds db resource_id req).contains rp.id))

/-- `actions.add_holder_permissions`: compute the permission ids already held
by the holder on the resource; join `resource_permissions` with
`resource_holder_permissions` (any holder) on the resource, keep the rows
whose permission value was requested and whose id the holder does not
already hold, deduplicate the full-entity result by primary key (legacy
`Query` uniquifying), and insert one new grant row per surviving
`ResourcePermission` row. -/
def add_holder_permissions (db : DB) (resource_id : Nat)
    (req : ResourcePermissionsRequest) : DB :=
  let permissions_to_add :=
    uniqueBy ResourcePermissionRow.id [] (addCandidates db resource_id req)
  let new_permission := permissions_to_add.enum.map
    (fun ip =>
      ({ id := db.nextId + ip.1
         user_id := if req.holder_type == HolderType.user then some req.holder_id else none
         group_id := if req.holder_type == HolderType.group then some req.holder_id else none
         resource_id := resource_id
         permission_id := ip.2.id } : ResourceHolderPermissionRow))
  { db with holder_permissions := db.holder_permissions ++ new_permission
            nextId := db.nextId + permissions_to_add.length }

/-- The row filter of `actions.delete_resource_holder_permissions`: a grant
row on the resource, for the requested holder, whose permission (resolved
through the `resource_permissions` join) is among the requested values. -/
def deleteMatch (db : DB) (resource_id : Nat) (req : ResourcePermissionsRequest)
    (hp : ResourceHolderPermissionRow) : Bool :=
  hp.resource_id == resource_id && requestHolderFilter req hp &&
    db.resource_permissions.any (fun rp => rp.id == hp.permission_id &&
      (req.permissions.map ResourcePermissionsEnum.value).contains rp.permission)

/-- `actions.delete_resource_holder_permissions`: fetch the matching grant
rows; raise `HolderPermissionsNotFound` when there are none, otherwise
delete exactly the matching rows. -/
def delete_resource_holder_permissions (db : DB) (resource_id : Nat)
    (req : ResourcePermissionsRequest) : Except Err DB :=
  let permissions_to_delete :=
    db.holder_permissions.filter (deleteMatch db resource_id req)
  if permissions_to_delete.length == 0 then
    Except.error (Err.holderPermissionsNotFound
      ("There is no permissions for provided holder with id: " ++
        toString req.holder_id))
  else
    Except.ok { db with holder_permissions :=
      db.holder_permissions.filter (fun hp => !(deleteMatch db resource_id req hp)) }

/-- `data.ResourceHolderResponse` (permission values kept as their stored
strings). -/
structure ResourceHolderResponse where
  id : Nat
  holder_type : HolderType
  permissions : List String
deriving DecidableEq, Repr

/-- `data.ResourceHoldersListResponse`. -/
structure ResourceHoldersListResponse where
  resource_id : Nat
  holders : List ResourceHolderResponse
deriving DecidableEq, Repr

/-- Append a value under a key into an association list of groups: extend
the existing entry for the key, or append a fresh entry at the end — the
behaviour of `defaultdict(list)[k].append(p)` including dict insertion
order. -/
def addToGroup : List (Nat × List String) → Nat → String →
    List (Nat × List String)
  | [], k, p => [(k, [p])]
  | (k2, ps) :: rest, k, p =>
    if k2 == k then (k2, ps ++ [p]) :: rest
    else (k2, ps) :: addToGroup rest k p

/-- Python `defaultdict(list)` grouping of an already keyed list: one entry
per distinct key in first-occurrence order, carrying that key's values in
encounter order. -/
def groupFlat (l : List (Nat × String)) : List (Nat × List String) :=
  l.foldl (fun acc q => addToGroup acc q.1 q.2) []

/-- Association-list lookup on the grouped entries (first match). -/
def assocGet (entries : List (Nat × List String)) (k : Nat) :
    Option (List String) :=
  (entries.find? (fun e => e.1 == k)).map (fun e => e.2)

instance : IsTotal (Nat × String) (fun a b => a.1 ≤ b.1) :=
  ⟨fun a b => Nat.le_total a.1 b.1⟩

instance : IsTrans (Nat × String) (fun a b => a.1 ≤ b.1) :=
  ⟨fun _ _ _ hab hbc => Nat.le_trans hab hbc⟩

/-- The rows fetched by `actions.get_resource_holders_permissions`:
`(user_id, group_id, permission)` tuples of the grant rows on the resource
joined with `resource_permissions`, optionally narrowed to grant rows whose
`user_id` or `group_id` equals `holder_id`. -/
def holderRows (db : DB) (resource_id : Nat) (holder_id : Option Nat) :
    List (Option Nat × Option Nat × String) :=
  let rows0 : List (Option Nat × Option Nat × String) :=
    (db.holder_permissions.filter
      (fun hp => hp.resource_id == resource_id)).flatMap
    (fun hp =>
      (db.resource_permissions.filter (fun rp => rp.id == hp.permission_id)).map
        (fun rp => (hp.user_id, hp.group_id, rp.permission)))
  match holder_id with
  | some hid =>
    rows0.filter (fun r : Option Nat × Option Nat × String =>
      r.1 == some hid || r.2.1 == some hid)
  | none => rows0

/-- `actions.get_resource_holders_permissions`: fetch the holder rows of the
resource, split them into the user-keyed and group-keyed sides, sort each
side by holder id (Python `sorted` — a stable sort, modelled by insertion
sort), group each side `defaultdict`-style, and return the user holders
followed by the group holders. -/
def get_resource_holders_permissions (db : DB) (resource_id : Nat)
    (holder_id : Option Nat) : ResourceHoldersListResponse :=
  let rows := holderRows db resource_id holder_id
  let users := rows.filterMap (fun r : Option Nat × Option Nat × String =>
    r.1.map (fun u => (u, r.2.2)))
  let users_sorted := users.insertionSort (fun a b => a.1 ≤ b.1)
  let user_holders := (groupFlat users_sorted).map
    (fun g => ResourceHolderResponse.mk g.1 HolderType.user g.2)
  let groups := rows.filterMap (fun r : Option Nat × Option Nat × String =>
    r.2.1.map (fun g => (g, r.2.2)))
  let groups_sorted := groups.insertionSort (fun a b => a.1 ≤ b.1)
  let group_holders := (groupFlat groups_sorted).map
    (fun g => ResourceHolderResponse.mk g.1 HolderType.group g.2)
  ⟨resource_id, user_holders ++ group_holders⟩

/-- Foreign-key integrity of `permission_id`: every grant row references an
existing `resource_permissions` row. -/
def PermissionFKIntegrity (db : DB) : Prop :=
  ∀ hp ∈ db.holder_permissions, ∃ rp ∈ db.resource_permissions,
    rp.id = hp.permission_id

/-- The requested holder currently holds permission `p` on the resource:
some grant row for that holder on that resource resolves (through the
`resource_permissions` catalog) to `p`'s value. -/
def heldOn (db : DB) (resource_id : Nat) (req : ResourcePermissionsRequest)
    (p : ResourcePermissionsEnum) : Prop :=
  ∃ hp ∈ db.holder_permissions, hp.resource_id = resource_id ∧
    requestHolderFilter req hp = true ∧
    ∃ rp ∈ db.resource_permissions, rp.id = hp.permission_id ∧
      rp.permission = p.value

/-- The permission values of the fetched holder rows whose user side is the
given user. -/
def userPermsOf (rows : List (Option Nat × Option Nat × String)) (u : Nat) :
    List String :=
  (rows.filter (fun r => r.1 == some u)).map (fun r => r.2.2)

/-- The permission values of the fetched holder rows whose group side is the
given group. -/
def groupPermsOf (rows : List (Option Nat × Option Nat × String)) (g : Nat) :
    List String :=
  (rows.filter (fun r => r.2.1 == some g)).map (fun r => r.2.2)

/-- Sample database for the creation claims: empty tables, one application
(id 1, owning group 5). -/
def sampleCreateDB : DB := ⟨[], [], [], [⟨1, 5⟩], 10⟩

/-- Sample database for the grant-addition claim: one resource (id 1) whose
catalog has `read` (id 10) and `admin` (id 11), with a single grant row —
user 5 holds `admin`; no grant row references `read`. -/
def sampleAddDB : DB :=
  ⟨[⟨1, 1, []⟩], [⟨10, 1, "read"⟩, ⟨11, 1, "admin"⟩],
    [⟨20, some 5, none, 1, 11⟩], [⟨1, 5⟩], 100⟩

/-- Sample database for the listing claim: one resource (id 1) on which user
5 holds a direct grant and group 7 holds a grant. -/
def sampleListDB : DB :=
  ⟨[⟨1, 1, []⟩], [], [⟨20, some 5, none, 1, 11⟩, ⟨21, none, some 7, 1, 11⟩],
    [⟨1, 5⟩], 100⟩

/-- Sample database for the data-update claim: one resource (id 1) with
empty `resource_data`. -/
def sampleUpdateDB : DB := ⟨[⟨1, 1, []⟩], [], [], [], 5⟩

/-- The database state that a successful `create_resource` commits: the new
Resource row, six `resource_permissions` catalog rows (one per
`ResourcePermissions` value), and twelve grant rows — a user grant and an
application-group grant per catalog row — with ids allocated sequentially
from `db.nextId`. -/
def seededDB (db : DB) (user_id application_id : Nat)
    (rdata : List (String × JsonValue)) (g : Nat) : DB :=
  { resources := db.resources ++ [⟨db.nextId, application_id, rdata⟩]
    resource_permissions := db.resource_permissions ++
      [⟨db.nextId + 1, db.nextId, "admin"⟩,
       ⟨db.nextId + 4, db.nextId, "create"⟩,
       ⟨db.nextId + 7, db.nextId, "read"⟩,
       ⟨db.nextId + 10, db.nextId, "update"⟩,
       ⟨db.nextId + 13, db.nextId, "delete"⟩,
       ⟨db.nextId + 16, db.nextId, "any"⟩]
    holder_permissions := db.holder_permissions ++
      [⟨db.nextId + 2, some user_id, none, db.nextId, db.nextId + 1⟩,
       ⟨db.nextId + 3, none, some g, db.nextId, db.nextId + 1⟩,
       ⟨db.nextId + 5, some user_id, none, db.nextId, db.nextId + 4⟩,
       ⟨db.nextId + 6, none, some g, db.nextId, db.nextId + 4⟩,
       ⟨db.nextId + 8, some user_id, none, db.nextId, db.nextId + 7⟩,
       ⟨db.nextId + 9, none, some g, db.nextId, db.nextId + 7⟩,
       ⟨db.nextId + 11, some user_id, none, db.nextId, db.nextId + 10⟩,
       ⟨db.nextId + 12, none, some g, db.nextId, db.nextId + 10⟩,
       ⟨db.nextId + 14, some user_id, none, db.nextId, db.nextId + 13⟩,
       ⟨db.nextId + 15, none, some g, db.nextId, db.nextId + 13⟩,
       ⟨db.nextId + 17, some user_id, none, db.nextId, db.nextId + 16⟩,
       ⟨db.nextId + 18, none, some g, db.nextId, db.nextId + 16⟩]
    applications := db.applications
    nextId := db.nextId + 19 }

/-- The side of the acl that `acl_check` tests against for a given
`check_type` (the union of both sides when it is `None`). -/
def aclSide (acl : Acl) (check_type : Option HolderType) : List String :=
  match check_type with
  | none => acl.user ++ acl.group
  | some HolderType.user => acl.user
  | some HolderType.group => acl.group

theorem acl_check_ok_iff (acl : Acl) (required_scopes : List ResourcePermissions)
    (check_type : Option HolderType) :
    acl_check acl required_scopes check_type = Except.ok () ↔
      ∀ s ∈ required_scopes, s.value ∈ aclSide acl check_type := by
  have key : ∀ perms : List String,
      ((if (required_scopes.map ResourcePermissions.value).all
            (fun v => perms.contains v) = true then (Except.ok () : Except Err Unit)
        else Except.error (Err.permissionsNotFound
          "No permissions for requested information")) = Except.ok () ↔
        ∀ s ∈ required_scopes, s.value ∈ perms) := by
    intro perms
    constructor
    · intro h s hs
      by_cases hc : (required_scopes.map ResourcePermissions.value).all
          (fun v => perms.contains v) = true
      · have := (List.all_eq_true.mp hc) s.value (List.mem_map.mpr ⟨s, hs, rfl⟩)
        simpa using this
      · rw [if_neg hc] at h; cases h
    · intro h
      have hc : (required_scopes.map ResourcePermissions.value).all
          (fun v => perms.contains v) = true := by
        refine List.all_eq_true.mpr ?_
        intro v hv
        obtain ⟨s, hs, rfl⟩ := List.mem_map.mp hv
        simpa using h s hs
      rw [if_pos hc]
  cases check_type with
  | none => simpa only [acl_check, aclSide] using key (acl.user ++ acl.group)
  | some t =>
    cases t with
    | user => simpa only [acl_check, aclSide] using key acl.user
    | group => simpa only [acl_check, aclSide] using key acl.group

/-- C1 counterexample: an acl whose union of permissions is the non-empty
set containing only "read" is DENIED by `acl_check` when the required
scopes are the singleton `any` — the code treats `any` as an ordinary
permission string inside its subset test, so a non-empty effective set does
not suffice. -/
theorem c1_counterexample :
    (Acl.mk ["read"] []).user ++ (Acl.mk ["read"] []).group ≠ [] ∧
    acl_check (Acl.mk ["read"] []) [ResourcePermissions.any] none =
      Except.error (Err.permissionsNotFound
        "No permissions for requested information") :=
  ⟨by simp, rfl⟩

/-- C1 (amended): `acl_check` gives the synthetic `any` no special
treatment — with `any` among `required_scopes` it returns ALLOW iff every
required value, the string "any" included, lies in the union of the
user-side and group-side permission lists; mere non-emptiness of the union
is not sufficient. -/
theorem c1_amended (acl : Acl) (required_scopes : List ResourcePermissions)
    (hany : ResourcePermissions.any ∈ required_scopes) :
    acl_check acl required_scopes none = Except.ok () ↔
      ∀ s ∈ required_scopes, s.value ∈ acl.user ++ acl.group := by
  simpa [aclSide] using acl_check_ok_iff acl required_scopes none

/-- Witness for the amended C1 at a concrete input. -/
theorem c1_amended_witness :
    ResourcePermissions.any ∈ [ResourcePermissions.any, ResourcePermissions.read] ∧
    (acl_check (Acl.mk ["any", "read"] [])
        [ResourcePermissions.any, ResourcePermissions.read] none = Except.ok () ↔
      ∀ s ∈ [ResourcePermissions.any, ResourcePermissions.read],
        s.value ∈ (Acl.mk ["any", "read"] []).user ++ (Acl.mk ["any", "read"] []).group) :=
  ⟨by decide,
    c1_amended (Acl.mk ["any", "read"] [])
      [ResourcePermissions.any, ResourcePermissions.read] (by decide)⟩

/-- C4: for required scopes without `any`, `acl_check` with no `check_type`
ALLOWs iff the required values are a subset of the union of the user-side
and group-side permissions, and with `check_type = user` iff they are a
subset of the user side alone; moreover a check that passes on the union
can DENY under user-only scope. -/
theorem c4_subset_semantics :
    (∀ (acl : Acl) (required_scopes : List ResourcePermissions),
        ResourcePermissions.any ∉ required_scopes →
        ((acl_check acl required_scopes none = Except.ok () ↔
            ∀ s ∈ required_scopes, s.value ∈ acl.user ++ acl.group) ∧
          (acl_check acl required_scopes (some HolderType.user) = Except.ok () ↔
            ∀ s ∈ required_scopes, s.value ∈ acl.user))) ∧
    ∃ (acl : Acl) (required_scopes : List ResourcePermissions),
      ResourcePermissions.any ∉ required_scopes ∧
      acl_check acl required_scopes none = Except.ok () ∧
      acl_check acl required_scopes (some HolderType.user) =
        Except.error (Err.permissionsNotFound
          "No permissions for requested information") := by
  constructor
  · intro acl required h
    exact ⟨by simpa [aclSide] using acl_check_ok_iff acl required none,
           by simpa [aclSide] using acl_check_ok_iff acl required (some HolderType.user)⟩
  · exact ⟨Acl.mk ["read"] ["update"],
      [ResourcePermissions.read, ResourcePermissions.update],
      by decide, rfl, rfl⟩

/-- Witness for C4 at a concrete input. -/
theorem c4_witness :
    ResourcePermissions.any ∉ [ResourcePermissions.read] ∧
    ((acl_check (Acl.mk ["read"] []) [ResourcePermissions.read] none = Except.ok () ↔
        ∀ s ∈ [ResourcePermissions.read],
          s.value ∈ (Acl.mk ["read"] []).user ++ (Acl.mk ["read"] []).group) ∧
      (acl_check (Acl.mk ["read"] []) [ResourcePermissions.read]
          (some HolderType.user) = Except.ok () ↔
        ∀ s ∈ [ResourcePermissions.read], s.value ∈ (Acl.mk ["read"] []).user)) :=
  ⟨by decide,
    c4_subset_semantics.1 (Acl.mk ["read"] []) [ResourcePermissions.read] (by decide)⟩

theorem mem_acl_auth_rows (db : DB) (uid : Nat) (gs : List Nat) (rid : Nat)
    (t : Option Nat × Option Nat × String) :
    t ∈ acl_auth_rows db uid gs rid ↔
      ∃ hp ∈ db.holder_permissions, hp.resource_id = rid ∧
        holderMatches uid gs hp = true ∧ t.1 = hp.user_id ∧ t.2.1 = hp.group_id ∧
        ∃ rp ∈ db.resource_permissions, rp.id = hp.permission_id ∧
          t.2.2 = rp.permission := by
  simp only [acl_auth_rows, List.mem_flatMap, List.mem_filter, List.mem_map,
    Bool.and_eq_true, beq_iff_eq]
  constructor
  · rintro ⟨hp, ⟨hmem, hrid, hmatch⟩, rp, ⟨hrpmem, hrpid⟩, heq⟩
    refine ⟨hp, hmem, hrid, hmatch, ?_, ?_, rp, hrpmem, hrpid, ?_⟩ <;>
      simp [← heq]
  · rintro ⟨hp, hmem, hrid, hmatch, h1, h2, rp, hrpmem, hrpid, h3⟩
    refine ⟨hp, ⟨hmem, hrid, hmatch⟩, rp, ⟨hrpmem, hrpid⟩, ?_⟩
    obtain ⟨a, b, c⟩ := t
    simp_all

theorem acl_auth_error_iff (db : DB) (uid : Nat) (gs : List Nat) (rid : Nat) :
    (∃ e, acl_auth db uid gs rid = Except.error e) ↔
      acl_auth_rows db uid gs rid = [] := by
  by_cases h : (acl_auth_rows db uid gs rid).isEmpty = true
  · simp [acl_auth, h, List.isEmpty_iff.mp h]
  · simp only [acl_auth, h]
    simp only [List.isEmpty_iff] at h
    simp [h]

theorem acl_auth_error_value (db : DB) (uid : Nat) (gs : List Nat) (rid : Nat)
    (e : Err) (h : acl_auth db uid gs rid = Except.error e) :
    e = Err.permissionsNotFound "No permissions for requested information" := by
  by_cases hh : (acl_auth_rows db uid gs rid).isEmpty = true
  · simp [acl_auth, hh] at h
    exact h.symm
  · simp [acl_auth, hh] at h

theorem acl_auth_ok_iff (db : DB) (uid : Nat) (gs : List Nat) (rid : Nat)
    (acl : Acl) :
    acl_auth db uid gs rid = Except.ok acl ↔
      acl_auth_rows db uid gs rid ≠ [] ∧
      acl = ⟨((acl_auth_rows db uid gs rid).filter
                (fun p => p.1.isSome)).map (fun p => p.2.2),
             ((acl_auth_rows db uid gs rid).filter
                (fun p => p.2.1.isSome)).map (fun p => p.2.2)⟩ := by
  by_cases h : (acl_auth_rows db uid gs rid).isEmpty = true
  · simp [acl_auth, h, List.isEmpty_iff.mp h]
  · simp only [acl_auth, h]
    simp only [List.isEmpty_iff] at h
    simp [h, eq_comm]

/-- C5: `acl_auth` raises `PermissionsNotFound` exactly when no grant row on
the resource names the user or one of the groups as holder (given
foreign-key integrity of `permission_id`); every failure carries the one
fixed error, so a nonexistent resource and an existing resource with zero
caller visibility are indistinguishable; and on success a fetched grant
contributes its permission to the user side iff its `user_id` is set and to
the group side iff its `group_id` is set. -/
theorem c5_acl_auth (db : DB) (user_id : Nat) (groups : List Nat)
    (resource_id : Nat) (hfk : PermissionFKIntegrity db) :
    ((∃ e, acl_auth db user_id groups resource_id = Except.error e) ↔
        ¬∃ hp ∈ db.holder_permissions, hp.resource_id = resource_id ∧
          holderMatches user_id groups hp = true) ∧
    (∀ (db2 : DB) (uid2 : Nat) (gs2 : List Nat) (rid2 : Nat) (e e2 : Err),
        acl_auth db user_id groups resource_id = Except.error e →
        acl_auth db2 uid2 gs2 rid2 = Except.error e2 → e = e2) ∧
    (∀ acl, acl_auth db user_id groups resource_id = Except.ok acl →
      (∀ p, p ∈ acl.user ↔ ∃ hp ∈ db.holder_permissions,
          hp.resource_id = resource_id ∧
          holderMatches user_id groups hp = true ∧ hp.user_id.isSome = true ∧
          ∃ rp ∈ db.resource_permissions, rp.id = hp.permission_id ∧
            rp.permission = p) ∧
      (∀ p, p ∈ acl.group ↔ ∃ hp ∈ db.holder_permissions,
          hp.resource_id = resource_id ∧
          holderMatches user_id groups hp = true ∧ hp.group_id.isSome = true ∧
          ∃ rp ∈ db.resource_permissions, rp.id = hp.permission_id ∧
            rp.permission = p)) := by
  refine ⟨?_, ?_, ?_⟩
  · rw [acl_auth_error_iff]
    constructor
    · intro hnil ⟨hp, hmem, hrid, hmatch⟩
      obtain ⟨rp, hrpmem, hrpid⟩ := hfk hp hmem
      have : (hp.user_id, hp.group_id, rp.permission) ∈
          acl_auth_rows db user_id groups resource_id := by
        rw [mem_acl_auth_rows]
        exact ⟨hp, hmem, hrid, hmatch, rfl, rfl, rp, hrpmem, hrpid, rfl⟩
      rw [hnil] at this
      cases this
    · intro hno
      rcases hrows : acl_auth_rows db user_id groups resource_id with _ | ⟨t, rest⟩
      · rfl
      · exfalso
        have : t ∈ acl_auth_rows db user_id groups resource_id := by
          rw [hrows]; exact List.mem_cons_self _ _
        rw [mem_acl_auth_rows] at this
        obtain ⟨hp, hmem, hrid, hmatch, -⟩ := this
        exact hno ⟨hp, hmem, hrid, hmatch⟩
  · intro db2 uid2 gs2 rid2 e e2 h1 h2
    rw [acl_auth_error_value db user_id groups resource_id e h1,
      acl_auth_error_value db2 uid2 gs2 rid2 e2 h2]
  · intro acl hok
    obtain ⟨-, rfl⟩ := (acl_auth_ok_iff db user_id groups resource_id acl).mp hok
    constructor
    · intro p
      simp only [List.mem_map, List.mem_filter]
      constructor
      · rintro ⟨t, ⟨htmem, hsome⟩, rfl⟩
        rw [mem_acl_auth_rows] at htmem
        obtain ⟨hp, hmem, hrid, hmatch, h1, h2, rp, hrpmem, hrpid, h3⟩ := htmem
        exact ⟨hp, hmem, hrid, hmatch, by rw [← h1]; exact hsome,
          rp, hrpmem, hrpid, h3.symm⟩
      · rintro ⟨hp, hmem, hrid, hmatch, hsome, rp, hrpmem, hrpid, rfl⟩
        refine ⟨(hp.user_id, hp.group_id, rp.permission), ⟨?_, hsome⟩, rfl⟩
        rw [mem_acl_auth_rows]
        exact ⟨hp, hmem, hrid, hmatch, rfl, rfl, rp, hrpmem, hrpid, rfl⟩
    · intro p
      simp only [List.mem_map, List.mem_filter]
      constructor
      · rintro ⟨t, ⟨htmem, hsome⟩, rfl⟩
        rw [mem_acl_auth_rows] at htmem
        obtain ⟨hp, hmem, hrid, hmatch, h1, h2, rp, hrpmem, hrpid, h3⟩ := htmem
        exact ⟨hp, hmem, hrid, hmatch, by rw [← h2]; exact hsome,
          rp, hrpmem, hrpid, h3.symm⟩
      · rintro ⟨hp, hmem, hrid, hmatch, hsome, rp, hrpmem, hrpid, rfl⟩
        refine ⟨(hp.user_id, hp.group_id, rp.permission), ⟨?_, hsome⟩, rfl⟩
        rw [mem_acl_auth_rows]
        exact ⟨hp, hmem, hrid, hmatch, rfl, rfl, rp, hrpmem, hrpid, rfl⟩

/-- Witness for C5 at a concrete database satisfying the foreign-key
hypothesis. -/
theorem c5_witness :
    ((∃ e, acl_auth sampleAddDB 5 [] 1 = Except.error e) ↔
        ¬∃ hp ∈ sampleAddDB.holder_permissions, hp.resource_id = 1 ∧
          holderMatches 5 [] hp = true) ∧
    (∀ (db2 : DB) (uid2 : Nat) (gs2 : List Nat) (rid2 : Nat) (e e2 : Err),
        acl_auth sampleAddDB 5 [] 1 = Except.error e →
        acl_auth db2 uid2 gs2 rid2 = Except.error e2 → e = e2) ∧
    (∀ acl, acl_auth sampleAddDB 5 [] 1 = Except.ok acl →
      (∀ p, p ∈ acl.user ↔ ∃ hp ∈ sampleAddDB.holder_permissions,
          hp.resource_id = 1 ∧
          holderMatches 5 [] hp = true ∧ hp.user_id.isSome = true ∧
          ∃ rp ∈ sampleAddDB.resource_permissions, rp.id = hp.permission_id ∧
            rp.permission = p) ∧
      (∀ p, p ∈ acl.group ↔ ∃ hp ∈ sampleAddDB.holder_permissions,
          hp.resource_id = 1 ∧
          holderMatches 5 [] hp = true ∧ hp.group_id.isSome = true ∧
          ∃ rp ∈ sampleAddDB.resource_permissions, rp.id = hp.permission_id ∧
            rp.permission = p)) :=
  c5_acl_auth sampleAddDB 5 [] 1 (by unfold PermissionFKIntegrity; decide)

theorem deleteMatch_iff (db : DB) (rid : Nat) (req : ResourcePermissionsRequest)
    (hp : ResourceHolderPermissionRow) :
    deleteMatch db rid req hp = true ↔
      hp.resource_id = rid ∧ requestHolderFilter req hp = true ∧
        ∃ rp ∈ db.resource_permissions, rp.id = hp.permission_id ∧
          ∃ p ∈ req.permissions, rp.permission = p.value := by
  simp only [deleteMatch, Bool.and_eq_true, beq_iff_eq, List.any_eq_true,
    List.mem_map]
  constructor
  · rintro ⟨⟨h1, h2⟩, rp, hrp, hid, hcont⟩
    have : rp.permission ∈ req.permissions.map ResourcePermissionsEnum.value := by
      simpa using hcont
    obtain ⟨p, hpmem, hval⟩ := List.mem_map.mp this
    exact ⟨h1, h2, rp, hrp, hid, p, hpmem, hval.symm⟩
  · rintro ⟨h1, h2, rp, hrp, hid, p, hpmem, hval⟩
    refine ⟨⟨h1, h2⟩, rp, hrp, hid, ?_⟩
    simpa using List.mem_map.mpr ⟨p, hpmem, hval.symm⟩

/-- C6: `delete_resource_holder_permissions` raises
`HolderPermissionsNotFound` (always with the same holder-naming message)
exactly when none of the requested permissions is currently held by the
requested holder on the resource; on success exactly the matching grant
rows are deleted, so requested permissions that were not held are silent
no-ops. -/
theorem c6_delete_holder_permissions (db : DB) (rid : Nat)
    (req : ResourcePermissionsRequest) :
    ((∃ e, delete_resource_holder_permissions db rid req = Except.error e) ↔
        ∀ p ∈ req.permissions, ¬ heldOn db rid req p) ∧
    (∀ e, delete_resource_holder_permissions db rid req = Except.error e →
        e = Err.holderPermissionsNotFound
          ("There is no permissions for provided holder with id: " ++
            toString req.holder_id)) ∧
    (∀ db2, delete_resource_holder_permissions db rid req = Except.ok db2 →
      ∀ hp, hp ∈ db2.holder_permissions ↔
        (hp ∈ db.holder_permissions ∧
          ¬(hp.resource_id = rid ∧ requestHolderFilter req hp = true ∧
            ∃ rp ∈ db.resource_permissions, rp.id = hp.permission_id ∧
              ∃ p ∈ req.permissions, rp.permission = p.value))) := by
  have bridge : (∀ p ∈ req.permissions, ¬ heldOn db rid req p) ↔
      ∀ hp ∈ db.holder_permissions, ¬ deleteMatch db rid req hp = true := by
    constructor
    · intro hall hp hmem hm
      rw [deleteMatch_iff] at hm
      obtain ⟨h1, h2, rp, hrp, hid, p, hpmem, hval⟩ := hm
      exact hall p hpmem ⟨hp, hmem, h1, h2, rp, hrp, hid, hval⟩
    · rintro hall p hpmem ⟨hp, hmem, h1, h2, rp, hrp, hid, hval⟩
      exact hall hp hmem
        ((deleteMatch_iff db rid req hp).mpr ⟨h1, h2, rp, hrp, hid, p, hpmem, hval⟩)
  by_cases h : db.holder_permissions.filter (deleteMatch db rid req) = []
  · have hall := List.filter_eq_nil_iff.mp h
    have hred : delete_resource_holder_permissions db rid req =
        Except.error (Err.holderPermissionsNotFound
          ("There is no permissions for provided holder with id: " ++
            toString req.holder_id)) := by
      simp [delete_resource_holder_permissions, h]
    refine ⟨?_, ?_, ?_⟩
    · rw [hred]
      simp only [Except.error.injEq, exists_eq]
      simpa [true_iff] using bridge.mpr (by simpa using hall)
    · intro e he
      rw [hred] at he
      cases he
      rfl
    · intro db2 hok
      rw [hred] at hok
      cases hok
  · have hcond : ((db.holder_permissions.filter
        (deleteMatch db rid req)).length == 0) = false := by
      simp only [beq_eq_false_iff_ne, ne_eq, List.length_eq_zero]
      exact h
    have hred : delete_resource_holder_permissions db rid req =
        Except.ok { db with holder_permissions :=
          db.holder_permissions.filter (fun hp => !(deleteMatch db rid req hp)) } := by
      simp [delete_resource_holder_permissions, hcond]
    refine ⟨?_, ?_, ?_⟩
    · rw [hred]
      constructor
      · rintro ⟨e, he⟩; cases he
      · intro hall
        exact absurd (List.filter_eq_nil_iff.mpr (by simpa using bridge.mp hall)) h
    · intro e he
      rw [hred] at he
      cases he
    · intro db2 hok
      rw [hred] at hok
      cases hok
      intro hp
      simp only [List.mem_filter, Bool.not_eq_true']
      constructor
      · rintro ⟨hmem, hnm⟩
        refine ⟨hmem, fun hx => ?_⟩
        rw [← deleteMatch_iff db rid req hp] at hx
        rw [hx] at hnm
        cases hnm
      · rintro ⟨hmem, hnx⟩
        refine ⟨hmem, ?_⟩
        rcases hb : deleteMatch db rid req hp with _ | _
        · rfl
        · exact absurd ((deleteMatch_iff db rid req hp).mp hb) hnx

/-- Witness for C6 at a concrete input. -/
theorem c6_witness :
    ((∃ e, delete_resource_holder_permissions sampleAddDB 1
          ⟨5, HolderType.user, [ResourcePermissionsEnum.read]⟩ = Except.error e) ↔
        ∀ p ∈ (⟨5, HolderType.user, [ResourcePermissionsEnum.read]⟩ :
            ResourcePermissionsRequest).permissions,
          ¬ heldOn sampleAddDB 1
            ⟨5, HolderType.user, [ResourcePermissionsEnum.read]⟩ p) ∧
    (∀ e, delete_resource_holder_permissions sampleAddDB 1
          ⟨5, HolderType.user, [ResourcePermissionsEnum.read]⟩ = Except.error e →
        e = Err.holderPermissionsNotFound
          ("There is no permissions for provided holder with id: " ++
            toString (⟨5, HolderType.user, [ResourcePermissionsEnum.read]⟩ :
              ResourcePermissionsRequest).holder_id)) ∧
    (∀ db2, delete_resource_holder_permissions sampleAddDB 1
          ⟨5, HolderType.user, [ResourcePermissionsEnum.read]⟩ = Except.ok db2 →
      ∀ hp, hp ∈ db2.holder_permissions ↔
        (hp ∈ sampleAddDB.holder_permissions ∧
          ¬(hp.resource_id = 1 ∧
            requestHolderFilter
              ⟨5, HolderType.user, [ResourcePermissionsEnum.read]⟩ hp = true ∧
            ∃ rp ∈ sampleAddDB.resource_permissions, rp.id = hp.permission_id ∧
              ∃ p ∈ (⟨5, HolderType.user, [ResourcePermissionsEnum.read]⟩ :
                  ResourcePermissionsRequest).permissions,
                rp.permission = p.value))) :=
  c6_delete_holder_permissions sampleAddDB 1
    ⟨5, HolderType.user, [ResourcePermissionsEnum.read]⟩

theorem dictGet_dictSet (d : List (String × JsonValue)) (k : String)
    (v : JsonValue) (k' : String) :
    dictGet (dictSet d k v) k' = if k' = k then some v else dictGet d k' := by
  unfold dictSet dictGet
  by_cases hany : d.any (fun p => p.1 == k) = true
  · rw [if_pos hany]
    by_cases hk' : k' = k
    · rw [if_pos hk', hk', List.find?_map]
      have hpred : ((fun p : String × JsonValue => p.1 == k) ∘
          (fun p : String × JsonValue => if p.1 == k then (k, v) else p)) =
          fun p : String × JsonValue => p.1 == k := by
        funext q
        simp only [Function.comp_apply]
        by_cases hq : (q.1 == k) = true
        · rw [if_pos hq]
          rw [show ((k, v).1 == k) = true from beq_self_eq_true k, hq]
        · rw [if_neg hq]
      rw [hpred]
      obtain ⟨q0, hq0⟩ := Option.isSome_iff_exists.mp
        ((List.find?_isSome).mpr (List.any_eq_true.mp hany))
      rw [hq0]
      have hq0p := List.find?_some hq0
      simp [beq_iff_eq.mp hq0p]
    · rw [if_neg hk', List.find?_map]
      have hpred : ((fun p : String × JsonValue => p.1 == k') ∘
          (fun p : String × JsonValue => if p.1 == k then (k, v) else p)) =
          fun p : String × JsonValue => p.1 == k' := by
        funext q
        simp only [Function.comp_apply]
        by_cases hq : (q.1 == k) = true
        · rw [if_pos hq]
          have hqk : q.1 = k := beq_iff_eq.mp hq
          rw [hqk]
        · rw [if_neg hq]
      rw [hpred]
      rcases hfind : d.find? (fun p => p.1 == k') with _ | q0
      · rw [hfind]
        simp
      · rw [hfind]
        have hq0 := List.find?_some hfind
        have hne : q0.1 ≠ k := by
          have h1 : q0.1 = k' := beq_iff_eq.mp hq0
          rw [h1]
          exact hk'
        simp [Function.comp, hne]
  · rw [if_neg hany, List.find?_append]
    by_cases hk' : k' = k
    · rw [if_pos hk', hk']
      have hnone : d.find? (fun p => p.1 == k) = none := by
        rw [List.find?_eq_none]
        intro x hx hc
        exact hany (List.any_eq_true.mpr ⟨x, hx, hc⟩)
      rw [hnone]
      simp
    · rw [if_neg hk']
      rcases hfind : d.find? (fun p => p.1 == k') with _ | q0
      · rw [hfind]
        have : (((k, v).1 == k') : Bool) = false := by
          simpa using fun hc => hk' hc.symm
        simp [this]
      · rw [hfind]
        simp

theorem dictGet_dictDrop (d : List (String × JsonValue)) (k k' : String) :
    dictGet (dictDrop d k) k' = if k' = k then none else dictGet d k' := by
  unfold dictDrop dictGet
  by_cases hk' : k' = k
  · rw [if_pos hk', hk']
    have hnone : (d.filter (fun p => !(p.1 == k))).find? (fun p => p.1 == k) = none := by
      rw [List.find?_eq_none]
      intro x hx hc
      have h2 := (List.mem_filter.mp hx).2
      rw [hc] at h2
      cases h2
    rw [hnone]
    rfl
  · rw [if_neg hk']
    have key : (d.filter (fun p => !(p.1 == k))).find? (fun p => p.1 == k') =
        d.find? (fun p => p.1 == k') := by
      induction d with
      | nil => rfl
      | cons p rest ih =>
        by_cases hpk : (p.1 == k) = true
        · have hpk' : ¬ (p.1 == k') = true := by
            have h1 : p.1 = k := beq_iff_eq.mp hpk
            rw [h1]
            simpa using fun hc => hk' hc.symm
          have hfilter : (p :: rest).filter (fun p => !(p.1 == k)) =
              rest.filter (fun p => !(p.1 == k)) := by
            simp [List.filter_cons, hpk]
          rw [hfilter]
          simp only [List.find?_cons]
          have hb : (p.1 == k') = false := by simpa using hpk'
          simp only [hb]
          exact ih
        · have hfilter : (p :: rest).filter (fun p => !(p.1 == k)) =
              p :: rest.filter (fun p => !(p.1 == k)) := by
            simp [List.filter_cons, hpk]
          rw [hfilter]
          simp only [List.find?_cons]
          by_cases hpq : (p.1 == k') = true
          · simp only [hpq]
          · have hb : (p.1 == k') = false := by simpa using hpq
            simp only [hb]
            exact ih
    rw [key]

theorem dictGet_foldSet (u : List (String × JsonValue)) :
    ∀ (d : List (String × JsonValue)) (k : String), (u.map Prod.fst).Nodup →
    dictGet (u.foldl (fun acc kv => dictSet acc kv.1 kv.2) d) k =
      (match u.find? (fun p => p.1 == k) with
       | some p => some p.2
       | none => dictGet d k) := by
  induction u with
  | nil => intro d k _; rfl
  | cons kv rest ih =>
    intro d k hnodup
    have hnd : (rest.map Prod.fst).Nodup := (List.nodup_cons.mp (by simpa using hnodup)).2
    have hkv : kv.1 ∉ rest.map Prod.fst := (List.nodup_cons.mp (by simpa using hnodup)).1
    simp only [List.foldl_cons]
    rw [ih _ k hnd]
    by_cases hk : (kv.1 == k) = true
    · have hk' : kv.1 = k := beq_iff_eq.mp hk
      have hrest : rest.find? (fun p => p.1 == k) = none := by
        rw [List.find?_eq_none]
        intro x hx hc
        have hxk : x.1 = k := beq_iff_eq.mp hc
        exact hkv (by
          rw [hk', ← hxk]
          exact List.mem_map_of_mem Prod.fst hx)
      rw [hrest]
      simp only [List.find?_cons, hk]
      rw [dictGet_dictSet]
      rw [if_pos hk'.symm]
    · have hb : (kv.1 == k) = false := by simpa using hk
      have hne : ¬ k = kv.1 := by
        intro hc
        rw [hc, beq_self_eq_true] at hb
        cases hb
      simp only [List.find?_cons, hb]
      rcases hfind : rest.find? (fun p => p.1 == k) with _ | q
      · rw [dictGet_dictSet, if_neg hne]
      · simp only [hfind]

theorem dictGet_foldDrop (ks : List String) :
    ∀ (d : List (String × JsonValue)) (k : String),
    dictGet (ks.foldl (fun acc k2 => dictDrop acc k2) d) k =
      if k ∈ ks then none else dictGet d k := by
  induction ks with
  | nil => intro d k; simp
  | cons k0 rest ih =>
    intro d k
    simp only [List.foldl_cons]
    rw [ih]
    by_cases hk : k ∈ rest
    · rw [if_pos hk, if_pos (List.mem_cons_of_mem _ hk)]
    · rw [if_neg hk, dictGet_dictDrop]
      by_cases hk0 : k = k0
      · rw [if_pos hk0, if_pos (by rw [hk0]; exact List.mem_cons_self _ _)]
      · rw [if_neg hk0, if_neg (by simp [hk0, hk])]

/-- C8: for an existing resource, `update_resource_data` stores the result of
first shallow-merging the `update` map into the current `resource_data`
(new keys added, existing keys overwritten) and then deleting each
`drop_keys` key, where deleting an absent key is a silent no-op; a key both
updated and dropped is absent from the result. -/
theorem c8_update_then_drop (db : DB) (resource_id : Nat) (resource : ResourceRow)
    (hfind : db.resources.find? (fun r => r.id == resource_id) = some resource)
    (update : List (String × JsonValue)) (drop_keys : List String)
    (hu : (update.map Prod.fst).Nodup) :
    ∃ newRow : ResourceRow,
      update_resource_data db resource_id ⟨update, drop_keys⟩ =
        Except.ok
          ({ db with resources := (db.resources.map
              (fun r => if r.id == resource_id then newRow else r)) }, newRow) ∧
      newRow.id = resource.id ∧
      newRow.application_id = resource.application_id ∧
      ∀ k, dictGet newRow.resource_data k =
        (if k ∈ drop_keys then none
         else (match update.find? (fun p => p.1 == k) with
           | some p => some p.2
           | none => dictGet resource.resource_data k)) := by
  refine ⟨{ resource with resource_data := (drop_keys.foldl
      (fun acc k2 => dictDrop acc k2)
      (update.foldl (fun acc kv => dictSet acc kv.1 kv.2)
        resource.resource_data)) }, ?_, rfl, rfl, ?_⟩
  · simp only [update_resource_data, hfind]
  · intro k
    have h1 := dictGet_foldDrop drop_keys
      (update.foldl (fun acc kv => dictSet acc kv.1 kv.2) resource.resource_data) k
    have h2 := dictGet_foldSet update resource.resource_data k hu
    simp only []
    rw [h1, h2]

/-- Witness for C8 at the spec's own example: update with key "a" and drop
key "a" applied to an empty object. -/
theorem c8_witness :
    ∃ newRow : ResourceRow,
      update_resource_data sampleUpdateDB 1 ⟨[("a", JsonValue.nat 1)], ["a"]⟩ =
        Except.ok
          ({ sampleUpdateDB with resources := (sampleUpdateDB.resources.map
              (fun r => if r.id == 1 then newRow else r)) }, newRow) ∧
      newRow.id = (⟨1, 1, []⟩ : ResourceRow).id ∧
      newRow.application_id = (⟨1, 1, []⟩ : ResourceRow).application_id ∧
      ∀ k, dictGet newRow.resource_data k =
        (if k ∈ ["a"] then none
         else (match List.find? (fun p => p.1 == k) [("a", JsonValue.nat 1)] with
           | some p => some p.2
           | none => dictGet (⟨1, 1, []⟩ : ResourceRow).resource_data k)) :=
  c8_update_then_drop sampleUpdateDB 1 ⟨1, 1, []⟩ rfl
    [("a", JsonValue.nat 1)] ["a"] (by simp)

/-- C3 counterexample: running `create_resource` on a concrete database and
stopping after its first commit (the durable state seen if any later grant
insertion fails) leaves a committed state that contains the new Resource row
(id 10) and no grant row at all — the resource insert is not rolled back. -/
theorem c3_counterexample :
    (create_resource_ops sampleCreateDB 7 1 []).map (fun ops =>
      ((committedAfter sampleCreateDB ops 2).resources.map ResourceRow.id,
        (committedAfter sampleCreateDB ops 2).holder_permissions)) =
      some ([10], []) := by
  rfl

/-- C3 (amended): `create_resource` is not atomic — it commits the Resource
row before inserting any grant, and commits each permission's grants
separately, so a failure during grant insertion leaves a committed state
containing the Resource with none of its seed grants. -/
theorem c3_amended (db : DB) (user_id application_id : Nat)
    (rdata : List (String × JsonValue)) (application : ApplicationRow)
    (happ : db.applications.find? (fun a => a.id == application_id) =
      some application) :
    ∃ ops, create_resource_ops db user_id application_id rdata = some ops ∧
      (committedAfter db ops 2).resources =
        db.resources ++ [⟨db.nextId, application_id, rdata⟩] ∧
      (committedAfter db ops 2).holder_permissions = db.holder_permissions := by
  refine ⟨[SessionOp.insertResource ⟨db.nextId, application_id, rdata⟩,
      SessionOp.commit] ++
      (ResourcePermissions.all.enum.flatMap (fun ip =>
        let rpId := db.nextId + 1 + 3 * ip.1
        [SessionOp.insertResourcePermission ⟨rpId, db.nextId, ip.2.value⟩,
         SessionOp.commit,
         SessionOp.insertHolderPermission
           ⟨rpId + 1, some user_id, none, db.nextId, rpId⟩,
         SessionOp.insertHolderPermission
           ⟨rpId + 2, none, some application.group_id, db.nextId, rpId⟩,
         SessionOp.commit])), ?_, ?_, ?_⟩
  · rw [create_resource_ops, happ]
    rfl
  · rfl
  · rfl

/-- Witness for the amended C3 at a concrete input. -/
theorem c3_witness :
    ∃ ops, create_resource_ops sampleCreateDB 7 1 [] = some ops ∧
      (committedAfter sampleCreateDB ops 2).resources =
        sampleCreateDB.resources ++ [⟨sampleCreateDB.nextId, 1, []⟩] ∧
      (committedAfter sampleCreateDB ops 2).holder_permissions =
        sampleCreateDB.holder_permissions :=
  c3_amended sampleCreateDB 7 1 [] ⟨1, 5⟩ rfl

theorem create_resource_spec (db : DB) (user_id application_id : Nat)
    (rdata : List (String × JsonValue)) (application : ApplicationRow)
    (happ : db.applications.find? (fun a => a.id == application_id) =
      some application) :
    create_resource db user_id application_id rdata =
      some (seededDB db user_id application_id rdata application.group_id) := by
  rw [create_resource, create_resource_ops, happ]
  simp [seededDB, runOps, applyOp, List.append_assoc, ResourcePermissions.all,
    ResourcePermissions.value, List.enum, List.enumFrom, Nat.add_assoc]

/-- C2 counterexample: on a concrete database, `create_resource` inserts
twelve holder-grant rows (two per each of the six `ResourcePermissions`
values), not two, and one of the stored grants resolves to the synthetic
permission value "any". -/
theorem c2_counterexample :
    (create_resource sampleCreateDB 7 1 []).map
        (fun d => d.holder_permissions.length) = some 12 ∧
    ¬((create_resource sampleCreateDB 7 1 []).map
        (fun d => d.holder_permissions.length) = some 2) ∧
    (create_resource sampleCreateDB 7 1 []).map (fun d =>
      decide (∃ hp ∈ d.holder_permissions, ∃ rp ∈ d.resource_permissions,
        rp.id = hp.permission_id ∧
          rp.permission = ResourcePermissions.any.value)) = some true := by
  refine ⟨by rfl, by decide, by rfl⟩

/-- C2 (amended): a successful `create_resource` inserts the Resource row
and, for each of the six `ResourcePermissions` values — the synthetic `any`
included — one `admin`-style grant pair: one grant for the creating user and
one for the owning application's group, twelve grant rows in all; the value
"any" is stored like any other; and immediately after creation
`authorize(creator, resource, {admin})` is ALLOW. -/
theorem c2_amended (db : DB) (user_id application_id : Nat)
    (rdata : List (String × JsonValue)) (application : ApplicationRow)
    (happ : db.applications.find? (fun a => a.id == application_id) =
      some application) :
    ∃ db2, create_resource db user_id application_id rdata = some db2 ∧
      db2.resources = db.resources ++ [⟨db.nextId, application_id, rdata⟩] ∧
      db2.holder_permissions.length = db.holder_permissions.length + 12 ∧
      (∀ s : ResourcePermissions,
        (∃ hp ∈ db2.holder_permissions, hp.user_id = some user_id ∧
          hp.resource_id = db.nextId ∧
          ∃ rp ∈ db2.resource_permissions, rp.id = hp.permission_id ∧
            rp.permission = s.value) ∧
        (∃ hp ∈ db2.holder_permissions, hp.group_id = some application.group_id ∧
          hp.resource_id = db.nextId ∧
          ∃ rp ∈ db2.resource_permissions, rp.id = hp.permission_id ∧
            rp.permission = s.value)) ∧
      authorize db2 user_id [] db.nextId [ResourcePermissions.admin] =
        Except.ok () := by
  refine ⟨seededDB db user_id application_id rdata application.group_id,
    create_resource_spec db user_id application_id rdata application happ,
    rfl, by simp [seededDB], ?_, ?_⟩
  · intro s
    cases s
    case admin =>
      exact ⟨⟨⟨db.nextId + 2, some user_id, none, db.nextId, db.nextId + 1⟩,
          by simp [seededDB], rfl, rfl,
          ⟨db.nextId + 1, db.nextId, "admin"⟩, by simp [seededDB], rfl, rfl⟩,
        ⟨db.nextId + 3, none, some application.group_id, db.nextId, db.nextId + 1⟩,
          by simp [seededDB], rfl, rfl,
          ⟨db.nextId + 1, db.nextId, "admin"⟩, by simp [seededDB], rfl, rfl⟩
    case create =>
      exact ⟨⟨⟨db.nextId + 5, some user_id, none, db.nextId, db.nextId + 4⟩,
          by simp [seededDB], rfl, rfl,
          ⟨db.nextId + 4, db.nextId, "create"⟩, by simp [seededDB], rfl, rfl⟩,
        ⟨db.nextId + 6, none, some application.group_id, db.nextId, db.nextId + 4⟩,
          by simp [seededDB], rfl, rfl,
          ⟨db.nextId + 4, db.nextId, "create"⟩, by simp [seededDB], rfl, rfl⟩
    case read =>
      exact ⟨⟨⟨db.nextId + 8, some user_id, none, db.nextId, db.nextId + 7⟩,
          by simp [seededDB], rfl, rfl,
          ⟨db.nextId + 7, db.nextId, "read"⟩, by simp [seededDB], rfl, rfl⟩,
        ⟨db.nextId + 9, none, some application.group_id, db.nextId, db.nextId + 7⟩,
          by simp [seededDB], rfl, rfl,
          ⟨db.nextId + 7, db.nextId, "read"⟩, by simp [seededDB], rfl, rfl⟩
    case update =>
      exact ⟨⟨⟨db.nextId + 11, some user_id, none, db.nextId, db.nextId + 10⟩,
          by simp [seededDB], rfl, rfl,
          ⟨db.nextId + 10, db.nextId, "update"⟩, by simp [seededDB], rfl, rfl⟩,
        ⟨db.nextId + 12, none, some application.group_id, db.nextId, db.nextId + 10⟩,
          by simp [seededDB], rfl, rfl,
          ⟨db.nextId + 10, db.nextId, "update"⟩, by simp [seededDB], rfl, rfl⟩
    case delete =>
      exact ⟨⟨⟨db.nextId + 14, some user_id, none, db.nextId, db.nextId + 13⟩,
          by simp [seededDB], rfl, rfl,
          ⟨db.nextId + 13, db.nextId, "delete"⟩, by simp [seededDB], rfl, rfl⟩,
        ⟨db.nextId + 15, none, some application.group_id, db.nextId, db.nextId + 13⟩,
          by simp [seededDB], rfl, rfl,
          ⟨db.nextId + 13, db.nextId, "delete"⟩, by simp [seededDB], rfl, rfl⟩
    case any =>
      exact ⟨⟨⟨db.nextId + 17, some user_id, none, db.nextId, db.nextId + 16⟩,
          by simp [seededDB], rfl, rfl,
          ⟨db.nextId + 16, db.nextId, "any"⟩, by simp [seededDB], rfl, rfl⟩,
        ⟨db.nextId + 18, none, some application.group_id, db.nextId, db.nextId + 16⟩,
          by simp [seededDB], rfl, rfl,
          ⟨db.nextId + 16, db.nextId, "any"⟩, by simp [seededDB], rfl, rfl⟩
  · -- the creator's admin grant makes the authorization check pass
    have hrow : ((some user_id : Option Nat), (none : Option Nat), "admin") ∈
        acl_auth_rows (seededDB db user_id application_id rdata
          application.group_id) user_id [] db.nextId := by
      rw [mem_acl_auth_rows]
      refine ⟨⟨db.nextId + 2, some user_id, none, db.nextId, db.nextId + 1⟩,
        by simp [seededDB], rfl, by simp [holderMatches], rfl, rfl,
        ⟨db.nextId + 1, db.nextId, "admin"⟩, by simp [seededDB], rfl, rfl⟩
    have hne : acl_auth_rows (seededDB db user_id application_id rdata
        application.group_id) user_id [] db.nextId ≠ [] := by
      intro hnil
      rw [hnil] at hrow
      cases hrow
    have hok := (acl_auth_ok_iff (seededDB db user_id application_id rdata
      application.group_id) user_id [] db.nextId _).mpr ⟨hne, rfl⟩
    unfold authorize
    rw [hok]
    simp only [Except.bind]
    rw [acl_check_ok_iff]
    intro s hs
    have hs2 : s = ResourcePermissions.admin := by
      cases hs with
      | head => rfl
      | tail _ h => cases h
    subst hs2
    simp only [aclSide]
    refine List.mem_append_left _ ?_
    refine List.mem_map.mpr
      ⟨((some user_id : Option Nat), (none : Option Nat), "admin"),
        List.mem_filter.mpr ⟨hrow, rfl⟩, rfl⟩

/-- Witness for the amended C2 at a concrete input. -/
theorem c2_witness :
    ∃ db2, create_resource sampleCreateDB 7 1 [] = some db2 ∧
      db2.resources = sampleCreateDB.resources ++
        [⟨sampleCreateDB.nextId, 1, []⟩] ∧
      db2.holder_permissions.length =
        sampleCreateDB.holder_permissions.length + 12 ∧
      (∀ s : ResourcePermissions,
        (∃ hp ∈ db2.holder_permissions, hp.user_id = some 7 ∧
          hp.resource_id = sampleCreateDB.nextId ∧
          ∃ rp ∈ db2.resource_permissions, rp.id = hp.permission_id ∧
            rp.permission = s.value) ∧
        (∃ hp ∈ db2.holder_permissions,
          hp.group_id = some (⟨1, 5⟩ : ApplicationRow).group_id ∧
          hp.resource_id = sampleCreateDB.nextId ∧
          ∃ rp ∈ db2.resource_permissions, rp.id = hp.permission_id ∧
            rp.permission = s.value)) ∧
      authorize db2 7 [] sampleCreateDB.nextId [ResourcePermissions.admin] =
        Except.ok () :=
  c2_amended sampleCreateDB 7 1 [] ⟨1, 5⟩ rfl


theorem mem_of_mem_uniqueBy {α : Type} (key : α → Nat) :
    ∀ (l : List α) (seen : List Nat) (x : α), x ∈ uniqueBy key seen l → x ∈ l := by
  intro l
  induction l with
  | nil => intro seen x hx; simp [uniqueBy] at hx
  | cons r rest ih =>
    intro seen x hx
    rw [uniqueBy] at hx
    by_cases hc : seen.contains (key r) = true
    · rw [if_pos hc] at hx
      exact List.mem_cons_of_mem _ (ih seen x hx)
    · rw [if_neg hc] at hx
      rcases List.mem_cons.mp hx with h | h
      · exact h ▸ List.mem_cons_self _ _
      · exact List.mem_cons_of_mem _ (ih _ x h)

theorem mem_map_key_uniqueBy {α : Type} (key : α → Nat) :
    ∀ (l : List α) (seen : List Nat) (k : Nat),
      k ∈ (uniqueBy key seen l).map key ↔ k ∉ seen ∧ k ∈ l.map key := by
  intro l
  induction l with
  | nil => intro seen k; simp [uniqueBy]
  | cons r rest ih =>
    intro seen k
    rw [uniqueBy]
    by_cases hc : seen.contains (key r) = true
    · rw [if_pos hc]
      rw [ih seen k]
      simp only [List.map_cons, List.mem_cons]
      constructor
      · rintro ⟨h1, h2⟩
        exact ⟨h1, Or.inr h2⟩
      · rintro ⟨h1, h2 | h2⟩
        · exfalso
          exact h1 (h2 ▸ (by simpa using hc))
        · exact ⟨h1, h2⟩
    · rw [if_neg hc]
      simp only [List.map_cons, List.mem_cons]
      rw [ih (key r :: seen) k]
      have hseen : key r ∉ seen := fun hmem => hc (by simpa using hmem)
      constructor
      · rintro (h | ⟨h1, h2⟩)
        · exact ⟨h ▸ hseen, Or.inl h⟩
        · exact ⟨fun hs => h1 (List.mem_cons_of_mem _ hs), Or.inr h2⟩
      · rintro ⟨h1, h2 | h2⟩
        · exact Or.inl h2
        · by_cases hk : k = key r
          · exact Or.inl hk
          · exact Or.inr ⟨by simp [hk, h1], h2⟩

theorem nodup_map_key_uniqueBy {α : Type} (key : α → Nat) :
    ∀ (l : List α) (seen : List Nat), ((uniqueBy key seen l).map key).Nodup := by
  intro l
  induction l with
  | nil => intro seen; simp [uniqueBy]
  | cons r rest ih =>
    intro seen
    rw [uniqueBy]
    by_cases hc : seen.contains (key r) = true
    · rw [if_pos hc]
      exact ih seen
    · rw [if_neg hc]
      simp only [List.map_cons, List.nodup_cons]
      refine ⟨?_, ih (key r :: seen)⟩
      intro hmem
      exact ((mem_map_key_uniqueBy key rest (key r :: seen) (key r)).mp hmem).1
        (List.mem_cons_self _ _)

theorem mem_uniqueBy_of_injOn {α : Type} (key : α → Nat) :
    ∀ (l : List α) (seen : List Nat),
      (∀ a ∈ l, ∀ b ∈ l, key a = key b → a = b) →
      ∀ x, x ∈ uniqueBy key seen l ↔ key x ∉ seen ∧ x ∈ l := by
  intro l
  induction l with
  | nil => intro seen _ x; simp [uniqueBy]
  | cons r rest ih =>
    intro seen hinj x
    have hinj2 : ∀ a ∈ rest, ∀ b ∈ rest, key a = key b → a = b :=
      fun a ha b hb => hinj a (List.mem_cons_of_mem _ ha) b (List.mem_cons_of_mem _ hb)
    rw [uniqueBy]
    by_cases hc : seen.contains (key r) = true
    · rw [if_pos hc]
      rw [ih seen hinj2 x]
      simp only [List.mem_cons]
      constructor
      · rintro ⟨h1, h2⟩
        exact ⟨h1, Or.inr h2⟩
      · rintro ⟨h1, h2 | h2⟩
        · exfalso
          subst h2
          exact h1 (by simpa using hc)
        · exact ⟨h1, h2⟩
    · rw [if_neg hc]
      have hseen : key r ∉ seen := fun hmem => hc (by simpa using hmem)
      simp only [List.mem_cons]
      rw [ih (key r :: seen) hinj2 x]
      constructor
      · rintro (h | ⟨h1, h2⟩)
        · exact ⟨h ▸ hseen, Or.inl h⟩
        · exact ⟨fun hs => h1 (List.mem_cons_of_mem _ hs), Or.inr h2⟩
      · rintro ⟨h1, h2 | h2⟩
        · exact Or.inl h2
        · by_cases hk : key x = key r
          · exact Or.inl (hinj x (List.mem_cons_of_mem _ h2) r
              (List.mem_cons_self _ _) hk)
          · exact Or.inr ⟨by simp [hk, h1], h2⟩

theorem mem_foldl_filter {α β : Type} (p : β → α → Bool) :
    ∀ (params : List β) (l : List α) (x : α),
      x ∈ params.foldl (fun acc kv => acc.filter (p kv)) l ↔
        x ∈ l ∧ ∀ kv ∈ params, p kv x = true := by
  intro params
  induction params with
  | nil => intro l x; simp
  | cons kv rest ih =>
    intro l x
    simp only [List.foldl_cons]
    rw [ih]
    simp only [List.mem_filter]
    constructor
    · rintro ⟨⟨hx, hkv⟩, hall⟩
      refine ⟨hx, fun kv2 h2 => ?_⟩
      rcases List.mem_cons.mp h2 with h3 | h3
      · exact h3 ▸ hkv
      · exact hall _ h3
    · rintro ⟨hx, hall⟩
      exact ⟨⟨hx, hall kv (List.mem_cons_self _ _)⟩,
        fun kv2 h2 => hall _ (List.mem_cons_of_mem _ h2)⟩

/-- C10 counterexample: user 5 holds two matching grant rows on resource 1
of the sample database (one direct, one through group 7), yet the returned
list contains the resource exactly once, not once per grant row — the
legacy `Query` deduplicates entity results by primary key. -/
theorem c10_counterexample :
    (sampleListDB.holder_permissions.filter (fun hp =>
      hp.resource_id == (1 : Nat) && holderMatches 5 [7] hp)).length = 2 ∧
    get_list_of_resources sampleListDB 5 [7] [] none = [⟨1, 1, []⟩] :=
  ⟨rfl, rfl⟩

/-- C10 (amended): the SQL join of `get_list_of_resources` produces one row
per matching grant, but the full-entity result is deduplicated by primary
key, so the returned list contains each resource passing the filters
exactly once — regardless of how many grant rows the user holds on it —
and membership is exactly: some grant row of the user or their groups on
the resource, the optional application filter, and the `resource_data`
exact-match filters. -/
theorem c10_list_dedup (db : DB) (user_id : Nat) (user_groups_ids : List Nat)
    (params : List (String × String)) (application_id : Option Nat)
    (hids : (db.resources.map ResourceRow.id).Nodup) :
    ((get_list_of_resources db user_id user_groups_ids params
        application_id).map ResourceRow.id).Nodup ∧
    (∀ r, r ∈ get_list_of_resources db user_id user_groups_ids params
        application_id ↔
      (r ∈ db.resources ∧
        (∃ hp ∈ db.holder_permissions, hp.resource_id = r.id ∧
          holderMatches user_id user_groups_ids hp = true) ∧
        (∀ aid, application_id = some aid → r.application_id = aid) ∧
        (∀ kv ∈ params, (dictGet r.resource_data kv.1).bind JsonValue.astext =
          some kv.2))) := by
  have hjoined : ∀ r, r ∈ db.resources.flatMap (fun r2 =>
      (db.holder_permissions.filter (fun hp => hp.resource_id == r2.id &&
        holderMatches user_id user_groups_ids hp)).map (fun _ => r2)) ↔
      (r ∈ db.resources ∧ ∃ hp ∈ db.holder_permissions, hp.resource_id = r.id ∧
        holderMatches user_id user_groups_ids hp = true) := by
    intro r
    rw [List.mem_flatMap]
    constructor
    · rintro ⟨r2, hr2, hmem⟩
      obtain ⟨hp, hhp, rfl⟩ := List.mem_map.mp hmem
      obtain ⟨hhpmem, hcond⟩ := List.mem_filter.mp hhp
      simp only [Bool.and_eq_true, beq_iff_eq] at hcond
      exact ⟨hr2, hp, hhpmem, hcond.1, hcond.2⟩
    · rintro ⟨hr, hp, hhpmem, hrid, hmatch⟩
      refine ⟨r, hr, List.mem_map.mpr ⟨hp, List.mem_filter.mpr ⟨hhpmem, ?_⟩, rfl⟩⟩
      simp [hrid, hmatch]
  have hbyapp : ∀ r, r ∈ (match application_id with
      | some aid => (db.resources.flatMap (fun r2 : ResourceRow =>
          (db.holder_permissions.filter
            (fun hp : ResourceHolderPermissionRow => hp.resource_id == r2.id &&
              holderMatches user_id user_groups_ids hp)).map
              (fun _ => r2))).filter
            (fun r2 : ResourceRow => r2.application_id == aid)
      | none => db.resources.flatMap (fun r2 : ResourceRow =>
          (db.holder_permissions.filter
            (fun hp : ResourceHolderPermissionRow => hp.resource_id == r2.id &&
              holderMatches user_id user_groups_ids hp)).map (fun _ => r2))) ↔
      (r ∈ db.resources ∧ (∃ hp ∈ db.holder_permissions, hp.resource_id = r.id ∧
        holderMatches user_id user_groups_ids hp = true) ∧
        ∀ aid, application_id = some aid → r.application_id = aid) := by
    intro r
    cases application_id with
    | none =>
      rw [hjoined r]
      simp
    | some aid =>
      rw [List.mem_filter, hjoined r]
      simp only [beq_iff_eq, Option.some.injEq]
      constructor
      · rintro ⟨⟨h1, h2⟩, h3⟩
        exact ⟨h1, h2, fun aid2 he => he ▸ h3⟩
      · rintro ⟨h1, h2, h3⟩
        exact ⟨⟨h1, h2⟩, h3 aid rfl⟩
  have hbyparams : ∀ r, r ∈ get_list_of_resources db user_id user_groups_ids
      params application_id ↔
      ((r ∈ db.resources ∧ (∃ hp ∈ db.holder_permissions, hp.resource_id = r.id ∧
        holderMatches user_id user_groups_ids hp = true) ∧
        ∀ aid, application_id = some aid → r.application_id = aid) ∧
        ∀ kv ∈ params, ((dictGet r.resource_data kv.1).bind JsonValue.astext
          == some kv.2) = true) := by
    intro r
    unfold get_list_of_resources
    rw [mem_uniqueBy_of_injOn]
    rotate_left
    · intro a ha b hb hab
      have ha2 : a ∈ db.resources :=
        ((hbyapp a).mp ((mem_foldl_filter _ params _ a).mp ha).1).1
      have hb2 : b ∈ db.resources :=
        ((hbyapp b).mp ((mem_foldl_filter _ params _ b).mp hb).1).1
      exact List.inj_on_of_nodup_map hids ha2 hb2 hab
    · simp only [List.not_mem_nil, not_false_eq_true, true_and]
      rw [mem_foldl_filter (fun kv r2 =>
        ((dictGet r2.resource_data kv.1).bind JsonValue.astext == some kv.2))
        params _ r]
      rw [hbyapp r]
  constructor
  · unfold get_list_of_resources
    exact nodup_map_key_uniqueBy ResourceRow.id _ _
  · intro r
    rw [hbyparams r]
    constructor
    · rintro ⟨⟨h1, h2, h3⟩, h4⟩
      exact ⟨h1, h2, h3, fun kv hkv => beq_iff_eq.mp (h4 kv hkv)⟩
    · rintro ⟨h1, h2, h3, h4⟩
      exact ⟨⟨h1, h2, h3⟩, fun kv hkv => beq_iff_eq.mpr (h4 kv hkv)⟩

/-- Witness for C10 at a concrete input. -/
theorem c10_witness :
    ((get_list_of_resources sampleListDB 5 [7] [] none).map
        ResourceRow.id).Nodup ∧
    (∀ r, r ∈ get_list_of_resources sampleListDB 5 [7] [] none ↔
      (r ∈ sampleListDB.resources ∧
        (∃ hp ∈ sampleListDB.holder_permissions, hp.resource_id = r.id ∧
          holderMatches 5 [7] hp = true) ∧
        (∀ aid, (none : Option Nat) = some aid → r.application_id = aid) ∧
        (∀ kv ∈ ([] : List (String × String)),
          (dictGet r.resource_data kv.1).bind JsonValue.astext =
            some kv.2))) :=
  c10_list_dedup sampleListDB 5 [7] [] none (by simp [sampleListDB])


theorem mem_addJoined (db : DB) (rid : Nat) (rp : ResourcePermissionRow) :
    rp ∈ addJoined db rid ↔
      rp ∈ db.resource_permissions ∧ ∃ hp ∈ db.holder_permissions,
        hp.permission_id = rp.id ∧ hp.resource_id = rid := by
  simp only [addJoined, List.mem_flatMap, List.mem_map, List.mem_filter,
    Bool.and_eq_true, beq_iff_eq]
  constructor
  · rintro ⟨rp2, hrp2, hp, ⟨⟨hhp, hpid, hprid⟩, rfl⟩⟩
    exact ⟨hrp2, hp, hhp, hpid, hprid⟩
  · rintro ⟨hrp, hp, hhp, hpid, hprid⟩
    exact ⟨rp, hrp, hp, ⟨⟨hhp, hpid, hprid⟩, rfl⟩⟩

theorem mem_addHolderPermissionIds (db : DB) (rid : Nat)
    (req : ResourcePermissionsRequest) (k : Nat) :
    k ∈ addHolderPermissionIds db rid req ↔
      ∃ hp ∈ db.holder_permissions, hp.resource_id = rid ∧
        requestHolderFilter req hp = true ∧ hp.permission_id = k := by
  simp only [addHolderPermissionIds, List.mem_map, List.mem_filter,
    Bool.and_eq_true, beq_iff_eq]
  constructor
  · rintro ⟨hp, ⟨hhp, hrid, hfil⟩, rfl⟩
    exact ⟨hp, hhp, hrid, hfil, rfl⟩
  · rintro ⟨hp, hhp, hrid, hfil, rfl⟩
    exact ⟨hp, ⟨hhp, hrid, hfil⟩, rfl⟩

theorem mem_addCandidates (db : DB) (rid : Nat)
    (req : ResourcePermissionsRequest) (rp : ResourcePermissionRow) :
    rp ∈ addCandidates db rid req ↔
      rp ∈ addJoined db rid ∧
      rp.permission ∈ req.permissions.map ResourcePermissionsEnum.value ∧
      rp.id ∉ addHolderPermissionIds db rid req := by
  simp only [addCandidates, List.mem_filter, Bool.and_eq_true,
    Bool.not_eq_true]
  constructor
  · rintro ⟨hj, hreq, hnot⟩
    refine ⟨hj, by simpa using hreq, ?_⟩
    intro hmem
    rw [show (addHolderPermissionIds db rid req).contains rp.id = true from
      by simpa using hmem] at hnot
    cases hnot
  · rintro ⟨hj, hreq, hnot⟩
    refine ⟨hj, by simpa using hreq, ?_⟩
    rcases hb : (addHolderPermissionIds db rid req).contains rp.id with _ | _
    · rfl
    · exact absurd (by simpa using hb) hnot

theorem addNewRows_map_permission_id (db : DB) (rid : Nat)
    (req : ResourcePermissionsRequest) (l : List ResourcePermissionRow) :
    (l.enum.map (fun ip =>
      ({ id := db.nextId + ip.1
         user_id := if req.holder_type == HolderType.user then some req.holder_id else none
         group_id := if req.holder_type == HolderType.group then some req.holder_id else none
         resource_id := rid
         permission_id := ip.2.id } : ResourceHolderPermissionRow))).map
      (fun hp => hp.permission_id) = l.map ResourcePermissionRow.id := by
  rw [List.map_map]
  rw [show ((fun hp : ResourceHolderPermissionRow => hp.permission_id) ∘
      (fun ip : Nat × ResourcePermissionRow =>
        ({ id := db.nextId + ip.1
           user_id := if req.holder_type == HolderType.user then some req.holder_id else none
           group_id := if req.holder_type == HolderType.group then some req.holder_id else none
           resource_id := rid
           permission_id := ip.2.id } : ResourceHolderPermissionRow))) =
      (ResourcePermissionRow.id ∘ Prod.snd) from rfl]
  rw [← List.map_map, List.enum_map_snd]

theorem add_holder_permissions_of_candidates_nil (db : DB) (rid : Nat)
    (req : ResourcePermissionsRequest)
    (hnil : addCandidates db rid req = []) :
    add_holder_permissions db rid req = db := by
  simp only [add_holder_permissions, hnil]
  rw [show uniqueBy ResourcePermissionRow.id []
    ([] : List ResourcePermissionRow) = [] from rfl]
  simp only [List.enum_nil, List.map_nil, List.append_nil, List.length_nil,
    Nat.add_zero]

/-- C7 counterexample: in the sample database, permission `read` exists in
the resource catalog and is not granted to user 7, yet
`add_holder_permissions` for user 7 with permissions = {read} inserts
nothing (the database is unchanged) — the join requires some existing grant
row bearing the permission, and none does. -/
theorem c7_counterexample :
    add_holder_permissions sampleAddDB 1
        ⟨7, HolderType.user, [ResourcePermissionsEnum.read]⟩ = sampleAddDB ∧
    ¬ heldOn sampleAddDB 1 ⟨7, HolderType.user, [ResourcePermissionsEnum.read]⟩
        ResourcePermissionsEnum.read ∧
    (∃ rp ∈ sampleAddDB.resource_permissions, rp.resource_id = 1 ∧
      rp.permission = ResourcePermissionsEnum.read.value) := by
  refine ⟨rfl, ?_, ?_⟩
  · unfold heldOn
    decide
  · decide

/-- C7 (amended): `add_holder_permissions` appends one new grant row per
requested permission that is not already granted to the holder AND is
currently borne by at least one existing grant row on the resource (the
join requirement); requested permissions already held — or held by nobody —
insert nothing; and the operation is idempotent: running it twice yields
exactly the state after running it once. -/
theorem c7_add_holder_permissions (db : DB) (rid : Nat)
    (req : ResourcePermissionsRequest)
    (hids : (db.resource_permissions.map ResourcePermissionRow.id).Nodup) :
    (∃ newRows,
      (add_holder_permissions db rid req).holder_permissions =
        db.holder_permissions ++ newRows ∧
      (∀ hp ∈ newRows, hp.resource_id = rid ∧
        requestHolderFilter req hp = true) ∧
      ((newRows.map (fun hp => hp.permission_id)).Nodup) ∧
      (∀ rp ∈ db.resource_permissions,
        ((∃ hp ∈ newRows, hp.permission_id = rp.id) ↔
          (rp.permission ∈ req.permissions.map ResourcePermissionsEnum.value ∧
            ¬(∃ hp ∈ db.holder_permissions, hp.resource_id = rid ∧
              requestHolderFilter req hp = true ∧ hp.permission_id = rp.id) ∧
            (∃ hp ∈ db.holder_permissions, hp.permission_id = rp.id ∧
              hp.resource_id = rid))))) ∧
    add_holder_permissions (add_holder_permissions db rid req) rid req =
      add_holder_permissions db rid req := by
  have hfields : ∀ ip : Nat × ResourcePermissionRow,
      (({ id := db.nextId + ip.1
          user_id := if req.holder_type == HolderType.user then some req.holder_id else none
          group_id := if req.holder_type == HolderType.group then some req.holder_id else none
          resource_id := rid
          permission_id := ip.2.id } : ResourceHolderPermissionRow).resource_id = rid ∧
        requestHolderFilter req
          ({ id := db.nextId + ip.1
             user_id := if req.holder_type == HolderType.user then some req.holder_id else none
             group_id := if req.holder_type == HolderType.group then some req.holder_id else none
             resource_id := rid
             permission_id := ip.2.id } : ResourceHolderPermissionRow) = true) := by
    intro ip
    refine ⟨rfl, ?_⟩
    rcases hht : req.holder_type with _ | _ <;>
      simp [requestHolderFilter, hht]
  have hperm_ids := addNewRows_map_permission_id db rid req
    (uniqueBy ResourcePermissionRow.id [] (addCandidates db rid req))
  constructor
  · refine ⟨_, rfl, ?_, ?_, ?_⟩
    · intro hp hmem
      obtain ⟨ip, hip, rfl⟩ := List.mem_map.mp hmem
      exact hfields ip
    · rw [hperm_ids]
      exact nodup_map_key_uniqueBy ResourcePermissionRow.id _ _
    · intro rp hrp
      constructor
      · rintro ⟨hp, hmem, hpid⟩
        have hin : rp.id ∈ (uniqueBy ResourcePermissionRow.id []
            (addCandidates db rid req)).map ResourcePermissionRow.id := by
          rw [← hperm_ids]
          exact List.mem_map.mpr ⟨hp, hmem, hpid⟩
        have hin2 := ((mem_map_key_uniqueBy ResourcePermissionRow.id _ _
          rp.id).mp hin).2
        obtain ⟨rp2, hrp2, hrpid⟩ := List.mem_map.mp hin2
        have hrp2c := (mem_addCandidates db rid req rp2).mp hrp2
        have hrp2mem : rp2 ∈ db.resource_permissions :=
          ((mem_addJoined db rid rp2).mp hrp2c.1).1
        have hrpeq : rp2 = rp :=
          List.inj_on_of_nodup_map hids hrp2mem hrp hrpid
        subst hrpeq
        obtain ⟨hj, hreq, hnot⟩ := hrp2c
        refine ⟨hreq, ?_, ((mem_addJoined db rid rp2).mp hj).2⟩
        intro hex
        exact hnot ((mem_addHolderPermissionIds db rid req rp2.id).mpr hex)
      · rintro ⟨hreq, hnot, hex⟩
        have hcand : rp ∈ addCandidates db rid req := by
          rw [mem_addCandidates]
          refine ⟨(mem_addJoined db rid rp).mpr ⟨hrp, hex⟩, hreq, ?_⟩
          intro hin
          exact hnot ((mem_addHolderPermissionIds db rid req rp.id).mp hin)
        have hin : rp.id ∈ (uniqueBy ResourcePermissionRow.id []
            (addCandidates db rid req)).map ResourcePermissionRow.id :=
          (mem_map_key_uniqueBy ResourcePermissionRow.id _ _ rp.id).mpr
            ⟨by simp, List.mem_map.mpr ⟨rp, hcand, rfl⟩⟩
        rw [← hperm_ids] at hin
        obtain ⟨hp, hmem, hpid⟩ := List.mem_map.mp hin
        exact ⟨hp, hmem, hpid⟩
  · -- idempotence: a second identical call has no candidates left
    apply add_holder_permissions_of_candidates_nil
    rw [List.eq_nil_iff_forall_not_mem]
    intro rp hr
    rw [mem_addCandidates] at hr
    obtain ⟨hj, hreq, hnot⟩ := hr
    rw [mem_addJoined] at hj
    obtain ⟨hrpmem, hp, hhp, hpid, hprid⟩ := hj
    have hrpmem2 : rp ∈ db.resource_permissions := hrpmem
    have hsubnew : ∀ k, k ∈ ((uniqueBy ResourcePermissionRow.id []
        (addCandidates db rid req)).enum.map (fun ip =>
          ({ id := db.nextId + ip.1
             user_id := if req.holder_type == HolderType.user then some req.holder_id else none
             group_id := if req.holder_type == HolderType.group then some req.holder_id else none
             resource_id := rid
             permission_id := ip.2.id } : ResourceHolderPermissionRow))).map
          (fun hp2 => hp2.permission_id) →
        k ∈ addHolderPermissionIds (add_holder_permissions db rid req) rid req := by
      intro k hk
      obtain ⟨hp2, hmem2, hpid2⟩ := List.mem_map.mp hk
      refine (mem_addHolderPermissionIds _ rid req k).mpr
        ⟨hp2, List.mem_append_right _ hmem2, ?_, ?_, hpid2⟩
      · obtain ⟨ip, hip, rfl⟩ := List.mem_map.mp hmem2
        exact (hfields ip).1
      · obtain ⟨ip, hip, rfl⟩ := List.mem_map.mp hmem2
        exact (hfields ip).2
    rcases List.mem_append.mp hhp with hold | hnew
    · -- the grant row referencing rp existed already: rp was a candidate of
      -- the first call, so rp.id is now held by the requested holder
      have hcand : rp ∈ addCandidates db rid req := by
        rw [mem_addCandidates]
        refine ⟨(mem_addJoined db rid rp).mpr ⟨hrpmem2, hp, hold, hpid, hprid⟩,
          hreq, ?_⟩
        intro hin
        refine hnot ?_
        refine (mem_addHolderPermissionIds _ rid req rp.id).mpr ?_
        obtain ⟨hp2, hhp2, h1, h2, h3⟩ :=
          (mem_addHolderPermissionIds db rid req rp.id).mp hin
        exact ⟨hp2, List.mem_append_left _ hhp2, h1, h2, h3⟩
      have hin : rp.id ∈ (uniqueBy ResourcePermissionRow.id []
          (addCandidates db rid req)).map ResourcePermissionRow.id :=
        (mem_map_key_uniqueBy ResourcePermissionRow.id _ _ rp.id).mpr
          ⟨by simp, List.mem_map.mpr ⟨rp, hcand, rfl⟩⟩
      rw [← addNewRows_map_permission_id db rid req] at hin
      exact hnot (hsubnew rp.id hin)
    · -- the referencing grant row is one of the rows just inserted
      refine hnot (hsubnew rp.id ?_)
      exact List.mem_map.mpr ⟨hp, hnew, hpid⟩

/-- Witness for the amended C7 at a concrete input. -/
theorem c7_witness :
    (∃ newRows,
      (add_holder_permissions sampleAddDB 1
          ⟨7, HolderType.user, [ResourcePermissionsEnum.admin]⟩).holder_permissions =
        sampleAddDB.holder_permissions ++ newRows ∧
      (∀ hp ∈ newRows, hp.resource_id = 1 ∧
        requestHolderFilter ⟨7, HolderType.user,
          [ResourcePermissionsEnum.admin]⟩ hp = true) ∧
      ((newRows.map (fun hp => hp.permission_id)).Nodup) ∧
      (∀ rp ∈ sampleAddDB.resource_permissions,
        ((∃ hp ∈ newRows, hp.permission_id = rp.id) ↔
          (rp.permission ∈ [ResourcePermissionsEnum.admin].map
              ResourcePermissionsEnum.value ∧
            ¬(∃ hp ∈ sampleAddDB.holder_permissions, hp.resource_id = 1 ∧
              requestHolderFilter ⟨7, HolderType.user,
                [ResourcePermissionsEnum.admin]⟩ hp = true ∧
              hp.permission_id = rp.id) ∧
            (∃ hp ∈ sampleAddDB.holder_permissions, hp.permission_id = rp.id ∧
              hp.resource_id = 1))))) ∧
    add_holder_permissions (add_holder_permissions sampleAddDB 1
        ⟨7, HolderType.user, [ResourcePermissionsEnum.admin]⟩) 1
        ⟨7, HolderType.user, [ResourcePermissionsEnum.admin]⟩ =
      add_holder_permissions sampleAddDB 1
        ⟨7, HolderType.user, [ResourcePermissionsEnum.admin]⟩ :=
  c7_add_holder_permissions sampleAddDB 1
    ⟨7, HolderType.user, [ResourcePermissionsEnum.admin]⟩ (by decide)

theorem assocGet_addToGroup (k : Nat) (p : String) :
    ∀ (acc : List (Nat × List String)) (k' : Nat),
    assocGet (addToGroup acc k p) k' =
      if k' = k then
        (match assocGet acc k with
         | some ps => some (ps ++ [p])
         | none => some [p])
      else assocGet acc k' := by
  intro acc
  induction acc with
  | nil =>
    intro k'
    by_cases hk : k' = k
    · subst hk
      simp [addToGroup, assocGet]
    · have hb : (k == k') = false := by
        simpa using fun hc => hk hc.symm
      simp only [addToGroup, assocGet, List.find?_cons, hb, if_neg hk]
  | cons e rest ih =>
    intro k'
    obtain ⟨k2, ps⟩ := e
    by_cases h2 : (k2 == k) = true
    · have hk2 : k2 = k := beq_iff_eq.mp h2
      subst hk2
      rw [show addToGroup ((k2, ps) :: rest) k2 p =
        (k2, ps ++ [p]) :: rest from by simp [addToGroup]]
      by_cases hk : k' = k2
      · subst hk
        simp [assocGet, List.find?_cons]
      · have hb : (k2 == k') = false := by
          simpa using fun hc => hk hc.symm
        simp only [assocGet, List.find?_cons, hb, if_neg hk]
    · have hk2 : ¬ k2 = k := fun hc => h2 (beq_iff_eq.mpr hc)
      rw [show addToGroup ((k2, ps) :: rest) k p =
        (k2, ps) :: addToGroup rest k p from by simp [addToGroup, h2]]
      have hheadk : assocGet ((k2, ps) :: rest) k = assocGet rest k := by
        have hb2 : (k2 == k) = false := by simpa using hk2
        simp only [assocGet, List.find?_cons, hb2]
      by_cases hb : (k2 == k') = true
      · have hk' : k' = k2 := (beq_iff_eq.mp hb).symm
        have hkn : ¬ k' = k := by rw [hk']; exact hk2
        simp only [assocGet, List.find?_cons, hb, if_neg hkn]
      · by_cases hk : k' = k
        · rw [if_pos hk, hheadk]
          have hthis := ih k'
          rw [if_pos hk] at hthis
          simp only [assocGet, List.find?_cons, hb] at hthis ⊢
          exact hthis
        · rw [if_neg hk]
          have hthis := ih k'
          rw [if_neg hk] at hthis
          simp only [assocGet, List.find?_cons, hb] at hthis ⊢
          exact hthis

theorem keys_addToGroup (k : Nat) (p : String) :
    ∀ (acc : List (Nat × List String)),
    (addToGroup acc k p).map Prod.fst =
      if acc.any (fun e => e.1 == k) then acc.map Prod.fst
      else acc.map Prod.fst ++ [k] := by
  intro acc
  induction acc with
  | nil => simp [addToGroup]
  | cons e rest ih =>
    obtain ⟨k2, ps⟩ := e
    by_cases h2 : (k2 == k) = true
    · rw [show addToGroup ((k2, ps) :: rest) k p =
        (k2, ps ++ [p]) :: rest from by simp [addToGroup, h2]]
      simp [List.any_cons, h2]
    · rw [show addToGroup ((k2, ps) :: rest) k p =
        (k2, ps) :: addToGroup rest k p from by simp [addToGroup, h2]]
      simp only [List.any_cons, h2, Bool.false_or, List.map_cons, ih]
      by_cases hr : rest.any (fun e => e.1 == k) = true
      · rw [if_pos hr, if_pos hr]
      · rw [if_neg hr, if_neg hr]
        rfl

theorem keys_groupFold_mem :
    ∀ (l : List (Nat × String)) (acc : List (Nat × List String)) (k : Nat),
    k ∈ (l.foldl (fun acc2 q => addToGroup acc2 q.1 q.2) acc).map Prod.fst ↔
      k ∈ acc.map Prod.fst ∨ k ∈ l.map Prod.fst := by
  intro l
  induction l with
  | nil => intro acc k; simp
  | cons q rest ih =>
    intro acc k
    simp only [List.foldl_cons]
    rw [ih]
    rw [keys_addToGroup]
    by_cases ha : acc.any (fun e => e.1 == q.1) = true
    · rw [if_pos ha]
      obtain ⟨e, hemem, heq⟩ := List.any_eq_true.mp ha
      have hq : q.1 ∈ acc.map Prod.fst :=
        List.mem_map.mpr ⟨e, hemem, beq_iff_eq.mp heq⟩
      simp only [List.map_cons, List.mem_cons]
      constructor
      · rintro (h | h)
        · exact Or.inl h
        · exact Or.inr (Or.inr h)
      · rintro (h | h | h)
        · exact Or.inl h
        · exact Or.inl (h ▸ hq)
        · exact Or.inr h
    · rw [if_neg ha]
      simp only [List.mem_append, List.map_cons, List.mem_cons,
        List.mem_singleton]
      tauto

theorem keys_groupFold_nodup :
    ∀ (l : List (Nat × String)) (acc : List (Nat × List String)),
    (acc.map Prod.fst).Nodup →
    ((l.foldl (fun acc2 q => addToGroup acc2 q.1 q.2) acc).map Prod.fst).Nodup := by
  intro l
  induction l with
  | nil => intro acc h; simpa using h
  | cons q rest ih =>
    intro acc hnd
    simp only [List.foldl_cons]
    refine ih _ ?_
    rw [keys_addToGroup]
    by_cases ha : acc.any (fun e => e.1 == q.1) = true
    · rw [if_pos ha]; exact hnd
    · rw [if_neg ha]
      rw [List.nodup_append]
      refine ⟨hnd, List.nodup_singleton _, ?_⟩
      intro a hamem hasing
      have ha2 : a = q.1 := by simpa using hasing
      subst ha2
      obtain ⟨e, hemem, heq⟩ := List.mem_map.mp hamem
      exact absurd (List.any_eq_true.mpr ⟨e, hemem, by simp [heq]⟩) ha

theorem assocGet_groupFold :
    ∀ (l : List (Nat × String)) (acc : List (Nat × List String)) (k : Nat),
    assocGet (l.foldl (fun acc2 q => addToGroup acc2 q.1 q.2) acc) k =
      (match assocGet acc k with
       | some ps => some (ps ++ (l.filter (fun q => q.1 == k)).map (fun q => q.2))
       | none =>
         if k ∈ l.map Prod.fst then
           some ((l.filter (fun q => q.1 == k)).map (fun q => q.2))
         else none) := by
  intro l
  induction l with
  | nil =>
    intro acc k
    rcases h : assocGet acc k with _ | ps
    · simp [h]
    · simp [h]
  | cons q rest ih =>
    intro acc k
    simp only [List.foldl_cons]
    rw [ih, assocGet_addToGroup]
    by_cases hk : k = q.1
    · rw [if_pos hk]
      have hfil : List.filter (fun q2 => q2.1 == k) (q :: rest) =
          q :: List.filter (fun q2 => q2.1 == k) rest := by
        simp [List.filter_cons, show (q.1 == k) = true from beq_iff_eq.mpr hk.symm]
      rw [hfil]
      have hkeys : k ∈ (q :: rest).map Prod.fst := by simp [hk]
      rcases h : assocGet acc k with _ | ps
      · rw [show assocGet acc q.1 = none from hk ▸ h]
        simp [h, hkeys]
        exact Or.inl hk
      · rw [show assocGet acc q.1 = some ps from hk ▸ h]
        simp [h, List.append_assoc]
    · rw [if_neg hk]
      have hfil : List.filter (fun q2 => q2.1 == k) (q :: rest) =
          List.filter (fun q2 => q2.1 == k) rest := by
        simp [List.filter_cons,
          show (q.1 == k) = false from by simpa using fun hc => hk hc.symm]
      rw [hfil]
      rcases h : assocGet acc k with _ | ps
      · simp only []
        by_cases hm : k ∈ rest.map Prod.fst
        · rw [if_pos hm, if_pos (by simp [hm])]
        · rw [if_neg hm, if_neg (by simp [hk, hm])]
      · simp only []

theorem keys_groupFold_sorted :
    ∀ (l : List (Nat × String)) (acc : List (Nat × List String)),
    (acc.map Prod.fst).Pairwise (· < ·) →
    (∀ a ∈ acc.map Prod.fst, ∀ q ∈ l, a ≤ q.1) →
    l.Sorted (fun a b => a.1 ≤ b.1) →
    ((l.foldl (fun acc2 q => addToGroup acc2 q.1 q.2) acc).map
      Prod.fst).Pairwise (· < ·) := by
  intro l
  induction l with
  | nil => intro acc h _ _; simpa using h
  | cons q rest ih =>
    intro acc hpw hbnd hsort
    simp only [List.foldl_cons]
    have hsort2 : rest.Sorted (fun a b => a.1 ≤ b.1) :=
      (List.sorted_cons.mp hsort).2
    have hqle : ∀ q2 ∈ rest, q.1 ≤ q2.1 :=
      fun q2 h2 => (List.sorted_cons.mp hsort).1 q2 h2
    refine ih _ ?_ ?_ hsort2
    · rw [keys_addToGroup]
      by_cases ha : acc.any (fun e => e.1 == q.1) = true
      · rw [if_pos ha]; exact hpw
      · rw [if_neg ha]
        rw [List.pairwise_append]
        refine ⟨hpw, List.pairwise_singleton _ _, ?_⟩
        intro a hamem b hbsing
        have hb2 : b = q.1 := by simpa using hbsing
        have hle : a ≤ q.1 := hbnd a hamem q (List.mem_cons_self _ _)
        rw [hb2]
        rcases Nat.lt_or_ge a q.1 with h | h
        · exact h
        · exfalso
          have hab : a = q.1 := Nat.le_antisymm hle h
          obtain ⟨e, hemem, heq⟩ := List.mem_map.mp hamem
          exact absurd
            (List.any_eq_true.mpr ⟨e, hemem, by simp [heq, hab]⟩) ha
    · intro a hamem q2 hq2
      rw [keys_addToGroup] at hamem
      by_cases ha : acc.any (fun e => e.1 == q.1) = true
      · rw [if_pos ha] at hamem
        exact hbnd a hamem q2 (List.mem_cons_of_mem _ hq2)
      · rw [if_neg ha] at hamem
        rcases List.mem_append.mp hamem with h | h
        · exact hbnd a h q2 (List.mem_cons_of_mem _ hq2)
        · have ha2 : a = q.1 := by simpa using h
          subst ha2
          exact hqle q2 hq2

theorem mem_iff_assocGet :
    ∀ (entries : List (Nat × List String)), (entries.map Prod.fst).Nodup →
    ∀ (k : Nat) (ps : List String),
      ((k, ps) ∈ entries ↔ assocGet entries k = some ps) := by
  intro entries
  induction entries with
  | nil => intro _ k ps; simp [assocGet]
  | cons e rest ih =>
    intro hnd k ps
    obtain ⟨k2, ps2⟩ := e
    have hnd2 : (rest.map Prod.fst).Nodup := (List.nodup_cons.mp hnd).2
    have hk2nin : k2 ∉ rest.map Prod.fst := (List.nodup_cons.mp hnd).1
    by_cases hk : k2 = k
    · subst hk
      have hget : assocGet ((k2, ps2) :: rest) k2 = some ps2 := by
        simp [assocGet, List.find?_cons]
      rw [hget]
      simp only [List.mem_cons, Prod.mk.injEq]
      constructor
      · rintro (⟨-, rfl⟩ | h)
        · rfl
        · exfalso
          exact hk2nin (List.mem_map.mpr ⟨(k2, ps), h, rfl⟩)
      · intro h
        injection h with h2
        exact Or.inl ⟨by simp, h2.symm⟩
    · have hget : assocGet ((k2, ps2) :: rest) k = assocGet rest k := by
        simp only [assocGet, List.find?_cons,
          show (k2 == k) = false from by simpa using hk]
      rw [hget, ← ih hnd2 k ps]
      simp only [List.mem_cons, Prod.mk.injEq]
      constructor
      · rintro (⟨h1, -⟩ | h)
        · exact absurd h1.symm hk
        · exact h
      · intro h
        exact Or.inr h

theorem side_filter_map
    (sel : (Option Nat × Option Nat × String) → Option Nat) :
    ∀ (rows : List (Option Nat × Option Nat × String)) (u : Nat),
    ((rows.filterMap (fun r => (sel r).map (fun u2 => (u2, r.2.2)))).filter
        (fun q => q.1 == u)).map (fun q => q.2) =
      (rows.filter (fun r => sel r == some u)).map (fun r => r.2.2) := by
  intro rows
  induction rows with
  | nil => intro u; rfl
  | cons r rest ih =>
    intro u
    rcases hr : sel r with _ | u2
    · have hb : (sel r == some u) = false := by rw [hr]; rfl
      simp [List.filterMap_cons, hr, List.filter_cons, hb, ih u]
    · have hb : (sel r == some u) = (u2 == u) := by rw [hr]; rfl
      by_cases hu : (u2 == u) = true
      · simp [List.filterMap_cons, hr, List.filter_cons, hb, hu, ih u]
      · have hu2 : (u2 == u) = false := by simpa using hu
        simp [List.filterMap_cons, hr, List.filter_cons, hb, hu2, ih u]

theorem side_keys
    (sel : (Option Nat × Option Nat × String) → Option Nat)
    (rows : List (Option Nat × Option Nat × String)) (u : Nat) :
    u ∈ (rows.filterMap
        (fun r => (sel r).map (fun u2 => (u2, r.2.2)))).map Prod.fst ↔
      ∃ row ∈ rows, sel row = some u := by
  simp only [List.mem_map, List.mem_filterMap]
  constructor
  · rintro ⟨q, ⟨row, hrow, hq⟩, rfl⟩
    rcases hr : sel row with _ | u2
    · rw [hr] at hq
      cases hq
    · rw [hr] at hq
      injection hq with hq2
      refine ⟨row, hrow, ?_⟩
      rw [hr, ← hq2]
  · rintro ⟨row, hrow, hrm⟩
    exact ⟨(u, row.2.2), ⟨row, hrow, by rw [hrm]; rfl⟩, rfl⟩


/-- C9: `get_resource_holders_permissions` returns the user holders followed
by the group holders; within each part there is exactly one entry per
distinct holder id (ids are strictly increasing, hence duplicate-free),
an id appears iff some fetched grant row names it on that side, and each
entry's permission list carries exactly that holder's fetched permissions
(as a multiset). -/
theorem c9_holders_partition (db : DB) (rid : Nat) (hid : Option Nat) :
    ∃ userHolders groupHolders,
      (get_resource_holders_permissions db rid hid).holders =
        userHolders ++ groupHolders ∧
      (∀ h ∈ userHolders, h.holder_type = HolderType.user) ∧
      (∀ h ∈ groupHolders, h.holder_type = HolderType.group) ∧
      (userHolders.map ResourceHolderResponse.id).Pairwise (· < ·) ∧
      (groupHolders.map ResourceHolderResponse.id).Pairwise (· < ·) ∧
      (∀ u, u ∈ userHolders.map ResourceHolderResponse.id ↔
        ∃ row ∈ holderRows db rid hid, row.1 = some u) ∧
      (∀ g, g ∈ groupHolders.map ResourceHolderResponse.id ↔
        ∃ row ∈ holderRows db rid hid, row.2.1 = some g) ∧
      (∀ h ∈ userHolders,
        h.permissions.Perm (userPermsOf (holderRows db rid hid) h.id)) ∧
      (∀ h ∈ groupHolders,
        h.permissions.Perm (groupPermsOf (holderRows db rid hid) h.id)) := by
  refine ⟨_, _, rfl, ?_, ?_, ?_, ?_, ?_, ?_, ?_, ?_⟩
  · intro h hm
    obtain ⟨g, hg, rfl⟩ := List.mem_map.mp hm
    rfl
  · intro h hm
    obtain ⟨g, hg, rfl⟩ := List.mem_map.mp hm
    rfl
  · rw [List.map_map]
    rw [show (ResourceHolderResponse.id ∘ (fun g : Nat × List String =>
      ResourceHolderResponse.mk g.1 HolderType.user g.2)) = Prod.fst from
      funext (fun g => rfl)]
    simp only [groupFlat]
    exact keys_groupFold_sorted _ []
      List.Pairwise.nil (by intro a ha q hq; simp at ha)
      (List.sorted_insertionSort _ _)
  · rw [List.map_map]
    rw [show (ResourceHolderResponse.id ∘ (fun g : Nat × List String =>
      ResourceHolderResponse.mk g.1 HolderType.group g.2)) = Prod.fst from
      funext (fun g => rfl)]
    simp only [groupFlat]
    exact keys_groupFold_sorted _ []
      List.Pairwise.nil (by intro a ha q hq; simp at ha)
      (List.sorted_insertionSort _ _)
  · intro u
    rw [List.map_map]
    rw [show (ResourceHolderResponse.id ∘ (fun g : Nat × List String =>
      ResourceHolderResponse.mk g.1 HolderType.user g.2)) = Prod.fst from
      funext (fun g => rfl)]
    simp only [groupFlat]
    rw [keys_groupFold_mem]
    simp only [List.map_nil, List.not_mem_nil, false_or]
    have hs : ∀ (l : List (Nat × String)),
        (u ∈ (l.insertionSort (fun a b => a.1 ≤ b.1)).map Prod.fst ↔
          u ∈ l.map Prod.fst) := by
      intro l
      simp only [List.mem_map]
      constructor
      · rintro ⟨q, hq, rfl⟩
        exact ⟨q, (List.mem_insertionSort _).mp hq, rfl⟩
      · rintro ⟨q, hq, rfl⟩
        exact ⟨q, (List.mem_insertionSort _).mpr hq, rfl⟩
    rw [hs]
    exact side_keys (fun r => r.1) (holderRows db rid hid) u
  · intro u
    rw [List.map_map]
    rw [show (ResourceHolderResponse.id ∘ (fun g : Nat × List String =>
      ResourceHolderResponse.mk g.1 HolderType.group g.2)) = Prod.fst from
      funext (fun g => rfl)]
    simp only [groupFlat]
    rw [keys_groupFold_mem]
    simp only [List.map_nil, List.not_mem_nil, false_or]
    have hs : ∀ (l : List (Nat × String)),
        (u ∈ (l.insertionSort (fun a b => a.1 ≤ b.1)).map Prod.fst ↔
          u ∈ l.map Prod.fst) := by
      intro l
      simp only [List.mem_map]
      constructor
      · rintro ⟨q, hq, rfl⟩
        exact ⟨q, (List.mem_insertionSort _).mp hq, rfl⟩
      · rintro ⟨q, hq, rfl⟩
        exact ⟨q, (List.mem_insertionSort _).mpr hq, rfl⟩
    rw [hs]
    exact side_keys (fun r => r.2.1) (holderRows db rid hid) u
  · intro h hm
    obtain ⟨g, hg, rfl⟩ := List.mem_map.mp hm
    obtain ⟨k, ps⟩ := g
    have hnd : ((groupFlat (((holderRows db rid hid).filterMap
        (fun r : Option Nat × Option Nat × String =>
          r.1.map (fun u => (u, r.2.2)))).insertionSort
            (fun a b => a.1 ≤ b.1))).map Prod.fst).Nodup := by
      simp only [groupFlat]
      exact keys_groupFold_nodup _ [] (by simp)
    have hget := (mem_iff_assocGet _ hnd k ps).mp hg
    simp only [groupFlat] at hget
    rw [assocGet_groupFold] at hget
    simp only [show assocGet [] k = none from rfl] at hget
    by_cases hmem : k ∈ (((holderRows db rid hid).filterMap
        (fun r : Option Nat × Option Nat × String =>
          r.1.map (fun u => (u, r.2.2)))).insertionSort
            (fun a b => a.1 ≤ b.1)).map Prod.fst
    · rw [if_pos hmem] at hget
      injection hget with hget2
      show ps.Perm (userPermsOf (holderRows db rid hid) k)
      rw [← hget2]
      have hperm := List.Perm.map (fun q : Nat × String => q.2)
        (List.Perm.filter (fun q : Nat × String => q.1 == k)
          (List.perm_insertionSort (fun a b : Nat × String => a.1 ≤ b.1)
            ((holderRows db rid hid).filterMap
              (fun r : Option Nat × Option Nat × String =>
                r.1.map (fun u => (u, r.2.2))))))
      refine hperm.trans ?_
      rw [side_filter_map (fun r => r.1) (holderRows db rid hid) k]
      exact List.Perm.refl _
    · rw [if_neg hmem] at hget
      cases hget
  · intro h hm
    obtain ⟨g, hg, rfl⟩ := List.mem_map.mp hm
    obtain ⟨k, ps⟩ := g
    have hnd : ((groupFlat (((holderRows db rid hid).filterMap
        (fun r : Option Nat × Option Nat × String =>
          r.2.1.map (fun g => (g, r.2.2)))).insertionSort
            (fun a b => a.1 ≤ b.1))).map Prod.fst).Nodup := by
      simp only [groupFlat]
      exact keys_groupFold_nodup _ [] (by simp)
    have hget := (mem_iff_assocGet _ hnd k ps).mp hg
    simp only [groupFlat] at hget
    rw [assocGet_groupFold] at hget
    simp only [show assocGet [] k = none from rfl] at hget
    by_cases hmem : k ∈ (((holderRows db rid hid).filterMap
        (fun r : Option Nat × Option Nat × String =>
          r.2.1.map (fun g => (g, r.2.2)))).insertionSort
            (fun a b => a.1 ≤ b.1)).map Prod.fst
    · rw [if_pos hmem] at hget
      injection hget with hget2
      show ps.Perm (groupPermsOf (holderRows db rid hid) k)
      rw [← hget2]
      have hperm := List.Perm.map (fun q : Nat × String => q.2)
        (List.Perm.filter (fun q : Nat × String => q.1 == k)
          (List.perm_insertionSort (fun a b : Nat × String => a.1 ≤ b.1)
            ((holderRows db rid hid).filterMap
              (fun r : Option Nat × Option Nat × String =>
                r.2.1.map (fun g => (g, r.2.2))))))
      refine hperm.trans ?_
      rw [side_filter_map (fun r => r.2.1) (holderRows db rid hid) k]
      exact List.Perm.refl _
    · rw [if_neg hmem] at hget
      cases hget

/-- Witness for C9 at a concrete input. -/
theorem c9_witness :
    ∃ userHolders groupHolders,
      (get_resource_holders_permissions sampleAddDB 1 none).holders =
        userHolders ++ groupHolders ∧
      (∀ h ∈ userHolders, h.holder_type = HolderType.user) ∧
      (∀ h ∈ groupHolders, h.holder_type = HolderType.group) ∧
      (userHolders.map ResourceHolderResponse.id).Pairwise (· < ·) ∧
      (groupHolders.map ResourceHolderResponse.id).Pairwise (· < ·) ∧
      (∀ u, u ∈ userHolders.map ResourceHolderResponse.id ↔
        ∃ row ∈ holderRows sampleAddDB 1 none, row.1 = some u) ∧
      (∀ g, g ∈ groupHolders.map ResourceHolderResponse.id ↔
        ∃ row ∈ holderRows sampleAddDB 1 none, row.2.1 = some g) ∧
      (∀ h ∈ userHolders,
        h.permissions.Perm (userPermsOf (holderRows sampleAddDB 1 none) h.id)) ∧
      (∀ h ∈ groupHolders,
        h.permissions.Perm (groupPermsOf (holderRows sampleAddDB 1 none) h.id)) :=
  c9_holders_partition sampleAddDB 1 none

end Brood
